import Mathlib

/-!
# common-history: the two Location adapters

A shallow embedding of `src/hash-location.js` (class `HashLocation`) and
`src/history-location.js` (class `HistoryLocation`).

* The adapter's fields are a record (`State`); a method is a function on a
  `World`: the adapter's fields, the browser window it talks to, the log of
  listener invocations and (for `HashLocation`) the pending `addListener`
  retries that wait on the promise returned by `_ensureSlash`.
* The browser is not part of the repository. What it does to the URL when the
  adapter calls it (`decodeURI`, `location.hash = v`, `location.replace`,
  `history.pushState`, `history.replaceState`) is a parameter, `Platform`;
  the event-listener registry and the log of calls are concrete (`Window`).
* A listener is an opaque callback: invoking it is recorded in
  `World.delivered`; it neither throws nor calls back into the adapter.
  `decodeURI` is taken total: URLs on which the built-in throws `URIError`
  are outside the model.
* `_length` is a JavaScript number that only ever moves by `± 1` from `1`;
  it is an `Int` here (exact below `2^53`).
-/

namespace CommonHistory

/-! ## Values shared by both adapters -/

/-- Identity of a listener callback. A JavaScript `Set` tells function
objects apart by reference; a reference is a number here. -/
abbrev Listener := Nat

/-- The object `{path, type}` built by `emit` and handed to every listener. -/
structure Change where
  path : String
  type : String
deriving DecidableEq, Repr

/-- A JavaScript `Set` of listeners: the elements in insertion order, none
twice. -/
structure ListenerSet where
  items : List Listener
  nodup : items.Nodup

namespace ListenerSet

/-- Result of `new Set()`, and of `clear()`. -/
def empty : ListenerSet := ⟨[], List.nodup_nil⟩

/-- Result of `Set.prototype.add`: a value already present is not added again, a new
one goes last in iteration order. -/
def add (s : ListenerSet) (l : Listener) : ListenerSet :=
  if h : l ∈ s.items then s
  else ⟨s.items ++ [l], List.Nodup.append s.nodup (List.nodup_singleton l)
    (by
      intro a ha hb
      rw [List.mem_singleton] at hb
      exact h (hb ▸ ha))⟩

/-- Result of `Set.prototype.delete`. -/
def delete (s : ListenerSet) (l : Listener) : ListenerSet :=
  ⟨s.items.erase l, s.nodup.erase l⟩

/-- Getter `Set.prototype.size`. -/
def size (s : ListenerSet) : Nat := s.items.length

/-- Method `Set.prototype.has`. -/
def has (s : ListenerSet) (l : Listener) : Bool := decide (l ∈ s.items)

end ListenerSet

/-- The changes listener `l` has been invoked with according to a log of
invocations, oldest first. -/
def invocations (log : List (Listener × Change)) (l : Listener) : List Change :=
  (log.filter (fun d => decide (d.1 = l))).map Prod.snd

instance : DecidableEq ListenerSet := fun a b =>
  if h : a.items = b.items then
    isTrue (by cases a; cases b; cases h; rfl)
  else
    isFalse (fun e => h (e ▸ rfl))

/-! ## JavaScript string helpers used by the source -/

/-- Pieces of a character list cut at every occurrence of `c`
(`String.prototype.split` with a one-character separator). -/
def splitChars (c : Char) : List Char → List (List Char)
  | [] => [[]]
  | a :: rest =>
    if a = c then [] :: splitChars c rest
    else
      match splitChars c rest with
      | [] => [[a]]
      | s :: ss => (a :: s) :: ss

/-- JavaScript `s.split(c)`. -/
def jsSplit (s : String) (c : Char) : List String :=
  (splitChars c s.data).map String.mk

/-- JavaScript `v || d` for `v` a string or `undefined` (`none`): both
`undefined` and the empty string are falsy. -/
def jsOr (v : Option String) (d : String) : String :=
  match v with
  | none => d
  | some s => if s = "" then d else s

/-- JavaScript `s.charAt(i)`: the one-character string at index `i`, or the
empty string past the end. -/
def charAt (s : String) (i : Nat) : String :=
  String.mk ((s.data.drop i).take 1)

/-- The fragment of a URL in the words of the specification: the substring
after its first `#`, empty when there is none. Compared with what the getter
`current` of `HashLocation` reads. -/
def specFragment (href : String) : String :=
  String.mk ((href.data.dropWhile (fun a => a != '#')).drop 1)

/-! ## The browser window -/

/-- The parts of `window.location` the adapters read (`href`, `pathname`,
`search`), with the origin the browser keeps alongside. -/
structure Location where
  origin : String
  href : String
  pathname : String
  search : String
deriving DecidableEq, Repr

/-- The second argument of every `addEventListener` / `removeEventListener`
call in the source: the adapter itself (`this`). -/
inductive Handler where
  | this
deriving DecidableEq, Repr

/-- A call the adapter makes on the browser, with its arguments. -/
inductive PlatformCall where
  | addEventListener (type : String) (handler : Handler) (useCapture : Bool)
  | removeEventListener (type : String) (handler : Handler) (useCapture : Bool)
  | assignHash (value : String)
  | locationReplace (url : String)
  | pushState (statePath : String) (title : String) (url : String)
  | replaceState (statePath : String) (title : String) (url : String)
  | historyBack
deriving DecidableEq, Repr

/-- The browser window as the adapter sees it: the current URL, the event
listeners registered on `window` for the adapter (event type and capture
flag), and the log of every call the adapter has made, oldest first. -/
structure Window where
  location : Location
  handlers : List (String × Bool)
  calls : List PlatformCall
deriving DecidableEq, Repr

/-- What the browser does to the URL, synchronously, on each call that can
change it. `history.back()` and whatever the user does change the URL later,
between two calls of the adapter. -/
structure Platform where
  decodeURI : String → String
  assignHash : Location → String → Location
  locationReplace : Location → String → Location
  pushState : Location → String → Location
  replaceState : Location → String → Location

namespace Window

/-- DOM `window.addEventListener(type, this, useCapture)`: a listener already
registered with the same type and capture flag is not added again. -/
def addEventListener (w : Window) (type : String) (useCapture : Bool) : Window :=
  { w with
    handlers :=
      if (type, useCapture) ∈ w.handlers then w.handlers
      else w.handlers ++ [(type, useCapture)]
    calls := w.calls ++ [PlatformCall.addEventListener type Handler.this useCapture] }

/-- DOM `window.removeEventListener(type, this, useCapture)`. -/
def removeEventListener (w : Window) (type : String) (useCapture : Bool) : Window :=
  { w with
    handlers := w.handlers.erase (type, useCapture)
    calls := w.calls ++ [PlatformCall.removeEventListener type Handler.this useCapture] }

/-- Assignment `window.location.hash = value`. -/
def assignHash (P : Platform) (w : Window) (value : String) : Window :=
  { w with
    location := P.assignHash w.location value
    calls := w.calls ++ [PlatformCall.assignHash value] }

/-- Call `window.location.replace(url)`. -/
def locationReplace (P : Platform) (w : Window) (url : String) : Window :=
  { w with
    location := P.locationReplace w.location url
    calls := w.calls ++ [PlatformCall.locationReplace url] }

/-- Call `window.history.pushState(state, title, url)` with `state.path = statePath`. -/
def pushState (P : Platform) (w : Window) (statePath title url : String) : Window :=
  { w with
    location := P.pushState w.location url
    calls := w.calls ++ [PlatformCall.pushState statePath title url] }

/-- Call `window.history.replaceState(state, title, url)` with `state.path = statePath`. -/
def replaceState (P : Platform) (w : Window) (statePath title url : String) : Window :=
  { w with
    location := P.replaceState w.location url
    calls := w.calls ++ [PlatformCall.replaceState statePath title url] }

/-- Call `window.history.back()`: the traversal is queued, the URL is not
changed before the call returns. -/
def historyBack (w : Window) : Window :=
  { w with calls := w.calls ++ [PlatformCall.historyBack] }

/-- A window on which the adapter has made no call yet. -/
def untouched (loc : Location) : Window :=
  { location := loc, handlers := [], calls := [] }

end Window

/-! ## HashLocation (`src/hash-location.js`) -/

namespace HashLocation

/-- The values the source assigns to `_lastAction` besides `null`: the
string literals `'PUSH'`, `'REPLACE'` and `'POP'`. -/
inductive Action where
  | PUSH
  | REPLACE
  | POP
deriving DecidableEq, Repr

/-- The string literal an action stands for. -/
def Action.toString : Action → String
  | Action.PUSH => "PUSH"
  | Action.REPLACE => "REPLACE"
  | Action.POP => "POP"

/-- Fields of a `HashLocation` instance; `none` is `null`. -/
structure State where
  _length : Int
  _lastAction : Option Action
  _listeners : ListenerSet
  _isListening : Bool
deriving DecidableEq

/-- The adapter together with everything its methods touch. `pending` holds
the listeners of the `addListener` calls that are waiting on the promise
of `_ensureSlash`, oldest first. -/
structure World where
  self : State
  window : Window
  delivered : List (Listener × Change)
  pending : List Listener
deriving DecidableEq

/-- Fields set by the `constructor()`. -/
def State.new : State :=
  { _length := 1, _lastAction := none, _listeners := ListenerSet.empty, _isListening := false }

/-- A freshly constructed adapter in a window at `loc`. -/
def World.fresh (loc : Location) : World :=
  { self := State.new, window := Window.untouched loc, delivered := [], pending := [] }

/-- Getter `current`: `decodeURI(window.location.href.split('#')[1] || '')`. -/
def current (P : Platform) (x : World) : String :=
  P.decodeURI (jsOr ((jsSplit x.window.location.href '#')[1]?) "")

/-- Getter `_hasSlash`: `this.current.charAt(0) === '/'`. -/
def _hasSlash (P : Platform) (x : World) : Bool :=
  charAt (current P x) 0 == "/"

/-- Method `dispose()`. Promises still pending are not cancelled. -/
def dispose (x : World) : World :=
  { x with
    self :=
      { _length := 1, _lastAction := none, _listeners := ListenerSet.empty,
        _isListening := false }
    window := x.window.removeEventListener "hashchange" false }

/-- Method `replace(path)`. -/
def replace (P : Platform) (path : String) (x : World) : World :=
  { x with
    self := { x.self with _lastAction := some Action.REPLACE }
    window :=
      x.window.locationReplace P
        (x.window.location.pathname ++ x.window.location.search ++ "#" ++ path) }

/-- Method `_ensureSlash()`, the part that runs before it returns:
`this.replace('/' + current)`. The promise it returns resolves once
`_hasSlash` is seen to hold; who waits on it is recorded by the caller. -/
def _ensureSlash (P : Platform) (x : World) : World :=
  replace P ("/" ++ current P x) x

/-- Method `addListener(listener)`. Without a leading slash the listener is
not registered: the call is retried when the promise of `_ensureSlash`
resolves, so the listener joins `pending`. -/
def addListener (P : Platform) (l : Listener) (x : World) : World :=
  if _hasSlash P x then
    let x1 := { x with self := { x.self with _listeners := x.self._listeners.add l } }
    if !x1.self._isListening then
      { x1 with
        window := x1.window.addEventListener "hashchange" false
        self := { x1.self with _isListening := true } }
    else x1
  else
    let x1 := _ensureSlash P x
    { x1 with pending := x1.pending ++ [l] }

/-- Method `removeListener(listener)`. -/
def removeListener (l : Listener) (x : World) : World :=
  let x1 := { x with self := { x.self with _listeners := x.self._listeners.delete l } }
  if x1.self._listeners.size = 0 then
    { x1 with
      window := x1.window.removeEventListener "hashchange" false
      self := { x1.self with _isListening := false } }
  else x1

/-- Method `emit(type)`. -/
def emit (P : Platform) (type : String) (x : World) : World :=
  let x1 :=
    if type = "PUSH" then { x with self := { x.self with _length := x.self._length + 1 } }
    else x
  let change : Change := { path := current P x1, type := type }
  { x1 with delivered := x1.delivered ++ x1.self._listeners.items.map (fun l => (l, change)) }

/-- Method `handleEvent()`. -/
def handleEvent (P : Platform) (x : World) : World :=
  if _hasSlash P x then
    let x1 := emit P (jsOr (x.self._lastAction.map Action.toString) "POP") x
    { x1 with self := { x1.self with _lastAction := none } }
  else
    _ensureSlash P x

/-- Method `push(path)`. -/
def push (P : Platform) (path : String) (x : World) : World :=
  { x with
    self := { x.self with _lastAction := some Action.PUSH }
    window := x.window.assignHash P path }

/-- Method `pop()`. -/
def pop (x : World) : World :=
  { x with
    self := { x.self with _lastAction := some Action.POP, _length := x.self._length - 1 }
    window := x.window.historyBack }

/-- One turn of the scheduler for the promises of `_ensureSlash`: while the
fragment has no leading slash every `checkSlash` reschedules itself; once it
has one, each promise resolves and its continuation calls
`this.addListener(listener)`, oldest first. -/
def runPending (P : Platform) (x : World) : World :=
  if _hasSlash P x then
    x.pending.foldl (fun y l => addListener P l y) { x with pending := [] }
  else x

/-- The browser moves to another URL between two calls of the adapter (the
user navigates, or a queued `back()` or `replace()` completes). -/
def navigate (loc : Location) (x : World) : World :=
  { x with window := { x.window with location := loc } }

/-- What can happen to an adapter: a method call, or a step of its
environment. -/
inductive Op where
  | addListener (l : Listener)
  | removeListener (l : Listener)
  | emit (type : String)
  | handleEvent
  | push (path : String)
  | replace (path : String)
  | pop
  | dispose
  | navigate (loc : Location)
  | runPending
deriving DecidableEq

/-- Number of `pop()` calls in a sequence. -/
def pops (ops : List Op) : Nat :=
  ops.countP (fun o => decide (o = Op.pop))

/-- Effect of one `Op`. -/
def step (P : Platform) (x : World) : Op → World
  | Op.addListener l => addListener P l x
  | Op.removeListener l => removeListener l x
  | Op.emit t => emit P t x
  | Op.handleEvent => handleEvent P x
  | Op.push p => push P p x
  | Op.replace p => replace P p x
  | Op.pop => pop x
  | Op.dispose => dispose x
  | Op.navigate loc => navigate loc x
  | Op.runPending => runPending P x

/-- Effect of a sequence of `Op`s, first to last. -/
def run (P : Platform) (ops : List Op) (x : World) : World :=
  ops.foldl (step P) x

/-- The state reached from a freshly constructed adapter at `loc` by `ops`. -/
def reach (P : Platform) (loc : Location) (ops : List Op) : World :=
  run P ops (World.fresh loc)

end HashLocation

/-! ## HistoryLocation (`src/history-location.js`) -/

namespace HistoryLocation

/-- Fields of a `HistoryLocation` instance. -/
structure State where
  _length : Int
  _listeners : ListenerSet
  _isListening : Bool
deriving DecidableEq

/-- The adapter together with everything its methods touch. -/
structure World where
  self : State
  window : Window
  delivered : List (Listener × Change)
deriving DecidableEq

/-- The `state` property of the event passed to `handleEvent`: `undefined`,
`null` (what a browser puts in the `popstate` event of an entry that carries
no state), or an object with a `path` attached by `pushState` /
`replaceState`. -/
inductive EventState where
  | undefined
  | null
  | object (path : String)
deriving DecidableEq, Repr

/-- The event object passed to `handleEvent`. -/
structure PopStateEvent where
  state : EventState
deriving DecidableEq, Repr

/-- Fields set by the `constructor()`. -/
def State.new : State :=
  { _length := 1, _listeners := ListenerSet.empty, _isListening := false }

/-- A freshly constructed adapter in a window at `loc`. -/
def World.fresh (loc : Location) : World :=
  { self := State.new, window := Window.untouched loc, delivered := [] }

/-- Getter `current`: `decodeURI(window.location.pathname + window.location.search)`. -/
def current (P : Platform) (x : World) : String :=
  P.decodeURI (x.window.location.pathname ++ x.window.location.search)

/-- Method `dispose()`. -/
def dispose (x : World) : World :=
  { x with
    self := { _length := 1, _listeners := ListenerSet.empty, _isListening := false }
    window := x.window.removeEventListener "popstate" false }

/-- Method `addListener(listener)`. -/
def addListener (l : Listener) (x : World) : World :=
  let x1 := { x with self := { x.self with _listeners := x.self._listeners.add l } }
  if !x1.self._isListening then
    { x1 with
      window := x1.window.addEventListener "popstate" false
      self := { x1.self with _isListening := true } }
  else x1

/-- Method `removeListener(listener)`. -/
def removeListener (l : Listener) (x : World) : World :=
  let x1 := { x with self := { x.self with _listeners := x.self._listeners.delete l } }
  if x1.self._listeners.size = 0 then
    { x1 with
      window := x1.window.removeEventListener "popstate" false
      self := { x1.self with _isListening := false } }
  else x1

/-- Method `emit(type)`. -/
def emit (P : Platform) (type : String) (x : World) : World :=
  let change : Change := { path := current P x, type := type }
  { x with delivered := x.delivered ++ x.self._listeners.items.map (fun l => (l, change)) }

/-- Method `handleEvent(event)`. -/
def handleEvent (P : Platform) (event : PopStateEvent) (x : World) : World :=
  if event.state = EventState.undefined then x
  else emit P "POP" x

/-- Method `push(path)`. -/
def push (P : Platform) (path : String) (x : World) : World :=
  let x1 := { x with window := x.window.pushState P path "" path }
  let x2 := { x1 with self := { x1.self with _length := x1.self._length + 1 } }
  emit P "PUSH" x2

/-- Method `replace(path)`. -/
def replace (P : Platform) (path : String) (x : World) : World :=
  let x1 := { x with window := x.window.replaceState P path "" path }
  emit P "REPLACE" x1

/-- Method `pop()`. -/
def pop (x : World) : World :=
  { x with
    self := { x.self with _length := x.self._length - 1 }
    window := x.window.historyBack }

/-- The browser moves to another URL between two calls of the adapter. -/
def navigate (loc : Location) (x : World) : World :=
  { x with window := { x.window with location := loc } }

/-- What can happen to an adapter: a method call, or a step of its
environment. -/
inductive Op where
  | addListener (l : Listener)
  | removeListener (l : Listener)
  | emit (type : String)
  | handleEvent (event : PopStateEvent)
  | push (path : String)
  | replace (path : String)
  | pop
  | dispose
  | navigate (loc : Location)
deriving DecidableEq

/-- Whether an `Op` is a `push(path)` call. -/
def Op.isPush : Op → Bool
  | Op.push _ => true
  | _ => false

/-- Number of `push(path)` calls in a sequence. -/
def pushes (ops : List Op) : Nat :=
  ops.countP Op.isPush

/-- Number of `pop()` calls in a sequence. -/
def pops (ops : List Op) : Nat :=
  ops.countP (fun o => decide (o = Op.pop))

/-- Effect of one `Op`. -/
def step (P : Platform) (x : World) : Op → World
  | Op.addListener l => addListener l x
  | Op.removeListener l => removeListener l x
  | Op.emit t => emit P t x
  | Op.handleEvent e => handleEvent P e x
  | Op.push p => push P p x
  | Op.replace p => replace P p x
  | Op.pop => pop x
  | Op.dispose => dispose x
  | Op.navigate loc => navigate loc x

/-- Effect of a sequence of `Op`s, first to last. -/
def run (P : Platform) (ops : List Op) (x : World) : World :=
  ops.foldl (step P) x

/-- The state reached from a freshly constructed adapter at `loc` by `ops`. -/
def reach (P : Platform) (loc : Location) (ops : List Op) : World :=
  run P ops (World.fresh loc)

end HistoryLocation

/-! ## A reference browser

A concrete `Platform`, used for the scenarios. Each function says on which
inputs it is what a browser does. -/

namespace Browser

/-- Value of a hexadecimal digit. -/
def hexDigit (c : Char) : Option Nat :=
  if '0' ≤ c ∧ c ≤ '9' then some (c.toNat - 48)
  else if 'a' ≤ c ∧ c ≤ 'f' then some (c.toNat - 87)
  else if 'A' ≤ c ∧ c ≤ 'F' then some (c.toNat - 55)
  else none

/-- Characters `decodeURI` never produces from an escape: the reserved set of
ECMAScript `decodeURI` together with `#`. -/
def reservedURI : List Char := [';', '/', '?', ':', '@', '&', '=', '+', '$', ',', '#']

/-- Percent-decoding of a character list: an escape `%XY` of an ASCII
character outside `reservedURI` is replaced by that character. -/
def decodeChars : List Char → List Char
  | [] => []
  | [c] => [c]
  | [c, a] => [c, a]
  | c :: a :: b :: rest =>
    if c = '%' then
      match hexDigit a, hexDigit b with
      | some h, some l =>
        if 16 * h + l < 128 ∧ Char.ofNat (16 * h + l) ∉ reservedURI then
          Char.ofNat (16 * h + l) :: decodeChars rest
        else c :: decodeChars (a :: b :: rest)
      | _, _ => c :: decodeChars (a :: b :: rest)
    else c :: decodeChars (a :: b :: rest)

/-- ECMAScript `decodeURI`, exact on strings all of whose escapes are well
formed and below `%80`. (On the others the built-in decodes UTF-8 sequences
or throws `URIError`; here they are left as they are.) -/
def decodeURI (s : String) : String := String.mk (decodeChars s.data)

/-- Cut a character list at the first `c`: what is before it, and what is
after it when there is one. -/
def cut (c : Char) (s : List Char) : List Char × Option (List Char) :=
  (s.takeWhile (fun a => a != c),
    match s.dropWhile (fun a => a != c) with
    | [] => none
    | _ :: r => some r)

/-- Location setter `location.hash = value`: one leading `#` of the value is
dropped; a fragment equal to the present one changes nothing; otherwise the
fragment of `href` is replaced. Exact for values of printable ASCII without
blank, double quote, angle brackets and backquote (the browser
percent-encodes these). -/
def assignHash (loc : Location) (value : String) : Location :=
  let input := match value.data with
    | [] => []
    | c :: r => if c = '#' then r else c :: r
  let (base, old) := cut '#' loc.href.data
  if input = old.getD [] then loc
  else { loc with href := String.mk (base ++ '#' :: input) }

/-- Call `location.replace(url)` for a `url` that differs from the present document
only in its fragment (what is before its first `#` is `pathname + search`):
the fragment of `href` is replaced before the call returns. Any other `url`
leaves the document; nothing changes before the call returns. -/
def locationReplace (loc : Location) (url : String) : Location :=
  let (main, frag) := cut '#' url.data
  match frag with
  | none => loc
  | some f =>
    if String.mk main = loc.pathname ++ loc.search then
      { loc with href := String.mk ((cut '#' loc.href.data).1 ++ '#' :: f) }
    else loc

/-- Directory of a path: up to and including its last `/`. -/
def dirname (p : List Char) : List Char :=
  (p.reverse.dropWhile (fun a => a != '/')).reverse

/-- The URL after `history.pushState(state, title, url)` or
`history.replaceState(state, title, url)`: `url` resolved against the present
location. Exact for a `url` of unreserved ASCII characters, `/`, one `?` and
one `#`, without dot segments. -/
def resolve (loc : Location) (url : String) : Location :=
  let (main, frag) := cut '#' url.data
  let (path, query) := cut '?' main
  let pathname :=
    if path = [] then loc.pathname
    else if path.head? = some '/' then String.mk path
    else String.mk (dirname loc.pathname.data ++ path)
  let search :=
    match query with
    | some q => if q = [] then "" else String.mk ('?' :: q)
    | none => if path = [] then loc.search else ""
  let hash :=
    match frag with
    | some f => String.mk ('#' :: f)
    | none => ""
  { loc with href := loc.origin ++ pathname ++ search ++ hash, pathname := pathname,
             search := search }

/-- The reference browser. -/
def browser : Platform :=
  { decodeURI := decodeURI
    assignHash := assignHash
    locationReplace := locationReplace
    pushState := resolve
    replaceState := resolve }

/-- The URL the repository's tests start from: `http://example.com/path/to`. -/
def testLocation : Location :=
  { origin := "http://example.com", href := "http://example.com/path/to",
    pathname := "/path/to", search := "" }

/-- The test URL after `location.hash = '/path/to'`. -/
def slashLocation : Location :=
  { origin := "http://example.com", href := "http://example.com/path/to#/path/to",
    pathname := "/path/to", search := "" }

/-- The test URL after `location.hash = '/a#b'`: a URL with two `#`. -/
def twoHashLocation : Location :=
  { origin := "http://example.com", href := "http://example.com/path/to#/a#b",
    pathname := "/path/to", search := "" }

end Browser

/-! ## Listener sets -/

namespace ListenerSet

theorem ext_items {s t : ListenerSet} (h : s.items = t.items) : s = t := by
  cases s; cases t; cases h; rfl

theorem size_empty : empty.size = 0 := rfl

theorem items_empty : empty.items = [] := rfl

theorem mem_add_self (s : ListenerSet) (l : Listener) : l ∈ (s.add l).items := by
  unfold add
  split
  · assumption
  · simp

theorem size_add_pos (s : ListenerSet) (l : Listener) : 0 < (s.add l).size := by
  unfold size
  exact List.length_pos_of_mem (mem_add_self s l)

theorem size_eq_zero_iff (s : ListenerSet) : s.size = 0 ↔ s.items = [] := by
  unfold size
  exact List.length_eq_zero

theorem size_delete_le (s : ListenerSet) (l : Listener) : (s.delete l).size ≤ s.size :=
  List.length_erase_le l s.items

end ListenerSet

/-! ## C1: `_isListening` mirrors the listener set -/

namespace HashLocation

/-- The flag `_isListening` is set exactly when a listener is registered. -/
def Listening (x : World) : Prop :=
  x.self._isListening = true ↔ 0 < x.self._listeners.size

theorem listening_fresh (loc : Location) : Listening (World.fresh loc) := by
  simp [Listening, World.fresh, State.new, ListenerSet.size_empty]

theorem listening_addListener (P : Platform) (l : Listener) (x : World)
    (h : Listening x) : Listening (addListener P l x) := by
  unfold addListener
  by_cases hs : _hasSlash P x = true
  · by_cases hl : x.self._isListening = true
    · simp [hs, hl, Listening, ListenerSet.size_add_pos]
    · simp [hs, hl, Listening, ListenerSet.size_add_pos]
  · simpa [hs, Listening, _ensureSlash, replace] using h

theorem listening_removeListener (l : Listener) (x : World)
    (h : Listening x) : Listening (removeListener l x) := by
  unfold removeListener
  by_cases hz : (x.self._listeners.delete l).size = 0
  · simp [hz, Listening]
  · have hpos : 0 < (x.self._listeners.delete l).size := Nat.pos_of_ne_zero hz
    have hmem : 0 < x.self._listeners.size :=
      Nat.lt_of_lt_of_le hpos (ListenerSet.size_delete_le _ l)
    simp [hz, Listening, hpos, h.mpr hmem]

theorem listening_emit (P : Platform) (t : String) (x : World)
    (h : Listening x) : Listening (emit P t x) := by
  unfold emit
  by_cases ht : t = "PUSH"
  · simpa [ht, Listening] using h
  · simpa [ht, Listening] using h

theorem listening_handleEvent (P : Platform) (x : World)
    (h : Listening x) : Listening (handleEvent P x) := by
  unfold handleEvent
  by_cases hs : _hasSlash P x = true
  · have := listening_emit P (jsOr (x.self._lastAction.map Action.toString) "POP") x h
    simpa [hs, Listening] using this
  · simpa [hs, Listening, _ensureSlash, replace] using h

theorem listening_foldl_addListener (P : Platform) (ls : List Listener) (x : World)
    (h : Listening x) : Listening (ls.foldl (fun y l => addListener P l y) x) := by
  induction ls generalizing x with
  | nil => exact h
  | cons l ls ih => exact ih _ (listening_addListener P l x h)

theorem listening_step (P : Platform) (x : World) (o : Op)
    (h : Listening x) : Listening (step P x o) := by
  cases o with
  | addListener l => exact listening_addListener P l x h
  | removeListener l => exact listening_removeListener l x h
  | emit t => exact listening_emit P t x h
  | handleEvent => exact listening_handleEvent P x h
  | push p => simpa [step, push, Listening] using h
  | replace p => simpa [step, replace, Listening] using h
  | pop => simpa [step, pop, Listening] using h
  | dispose => simp [step, dispose, Listening, ListenerSet.size_empty]
  | navigate loc => simpa [step, navigate, Listening] using h
  | runPending =>
    simp only [step, runPending]
    split
    · exact listening_foldl_addListener P _ _ (by simpa [Listening] using h)
    · exact h

theorem listening_run (P : Platform) (ops : List Op) (x : World)
    (h : Listening x) : Listening (run P ops x) := by
  induction ops generalizing x with
  | nil => exact h
  | cons o ops ih => exact ih _ (listening_step P x o h)

end HashLocation

namespace HistoryLocation

/-- The flag `_isListening` is set exactly when a listener is registered. -/
def Listening (x : World) : Prop :=
  x.self._isListening = true ↔ 0 < x.self._listeners.size

theorem listening_fresh_history (loc : Location) : Listening (World.fresh loc) := by
  simp [Listening, World.fresh, State.new, ListenerSet.size_empty]

theorem listening_addListener_history (l : Listener) (x : World) : Listening (addListener l x) := by
  unfold addListener
  by_cases hl : x.self._isListening = true
  · simp [hl, Listening, ListenerSet.size_add_pos]
  · simp [hl, Listening, ListenerSet.size_add_pos]

theorem listening_removeListener_history (l : Listener) (x : World)
    (h : Listening x) : Listening (removeListener l x) := by
  unfold removeListener
  by_cases hz : (x.self._listeners.delete l).size = 0
  · simp [hz, Listening]
  · have hpos : 0 < (x.self._listeners.delete l).size := Nat.pos_of_ne_zero hz
    have hmem : 0 < x.self._listeners.size :=
      Nat.lt_of_lt_of_le hpos (ListenerSet.size_delete_le _ l)
    simp [hz, Listening, hpos, h.mpr hmem]

theorem listening_step_history (P : Platform) (x : World) (o : Op)
    (h : Listening x) : Listening (step P x o) := by
  cases o with
  | addListener l => exact listening_addListener_history l x
  | removeListener l => exact listening_removeListener_history l x h
  | emit t => simpa [step, emit, Listening] using h
  | handleEvent e =>
    simp only [step, handleEvent]
    split
    · exact h
    · simpa [emit, Listening] using h
  | push p => simpa [step, push, emit, Listening] using h
  | replace p => simpa [step, replace, emit, Listening] using h
  | pop => simpa [step, pop, Listening] using h
  | dispose => simp [step, dispose, Listening, ListenerSet.size_empty]
  | navigate loc => simpa [step, navigate, Listening] using h

theorem listening_run_history (P : Platform) (ops : List Op) (x : World)
    (h : Listening x) : Listening (run P ops x) := by
  induction ops generalizing x with
  | nil => exact h
  | cons o ops ih => exact ih _ (listening_step_history P x o h)

end HistoryLocation

/-- C1: on both adapters, in every state reached from a freshly constructed
adapter by any sequence of `addListener`, `removeListener`, `emit`,
`handleEvent`, `push`, `replace`, `pop` and `dispose` calls (interleaved with
any URL changes by the browser and any runs of pending retries),
`_isListening` is true if and only if the listener set is non-empty. -/
theorem isListening_iff_listeners_nonempty (P : Platform) (loc : Location) :
    (∀ ops : List HashLocation.Op,
      (HashLocation.run P ops (HashLocation.World.fresh loc)).self._isListening = true ↔
        0 < (HashLocation.run P ops (HashLocation.World.fresh loc)).self._listeners.size) ∧
    (∀ ops : List HistoryLocation.Op,
      (HistoryLocation.run P ops (HistoryLocation.World.fresh loc)).self._isListening = true ↔
        0 < (HistoryLocation.run P ops (HistoryLocation.World.fresh loc)).self._listeners.size) :=
  ⟨fun ops => HashLocation.listening_run P ops _ (HashLocation.listening_fresh loc),
   fun ops => HistoryLocation.listening_run_history P ops _ (HistoryLocation.listening_fresh_history loc)⟩

/-! ## C2: one platform subscription, held exactly while `_isListening` -/

namespace HashLocation

/-- The adapter is registered on `window` for `hashchange` exactly when
`_isListening` is set, and never more than once. -/
def Subscribed (x : World) : Prop :=
  x.window.handlers = if x.self._isListening then [("hashchange", false)] else []

theorem hasSlash_congr (P : Platform) {x y : World}
    (h : y.window.location = x.window.location) : _hasSlash P y = _hasSlash P x := by
  simp [_hasSlash, current, h]

theorem subscribed_fresh (loc : Location) : Subscribed (World.fresh loc) := by
  simp [Subscribed, World.fresh, State.new, Window.untouched]

theorem subscribed_addListener (P : Platform) (l : Listener) (x : World)
    (h : Subscribed x) : Subscribed (addListener P l x) := by
  unfold addListener
  by_cases hs : _hasSlash P x = true
  · by_cases hl : x.self._isListening = true
    · simpa [hs, hl, Subscribed] using h
    · simp only [Subscribed, hl] at h
      simp [hs, hl, Subscribed, Window.addEventListener, h]
  · simpa [hs, Subscribed, _ensureSlash, replace, Window.locationReplace] using h

theorem subscribed_removeListener (l : Listener) (x : World)
    (h : Subscribed x) : Subscribed (removeListener l x) := by
  unfold removeListener
  by_cases hz : (x.self._listeners.delete l).size = 0
  · by_cases hl : x.self._isListening = true
    · simp only [Subscribed, hl] at h
      simp [hz, Subscribed, Window.removeEventListener, h]
    · simp only [Subscribed, hl] at h
      simp [hz, Subscribed, Window.removeEventListener, h]
  · simpa [hz, Subscribed] using h

theorem subscribed_emit (P : Platform) (t : String) (x : World)
    (h : Subscribed x) : Subscribed (emit P t x) := by
  unfold emit
  by_cases ht : t = "PUSH"
  · simpa [ht, Subscribed] using h
  · simpa [ht, Subscribed] using h

theorem subscribed_foldl_addListener (P : Platform) (ls : List Listener) (x : World)
    (h : Subscribed x) : Subscribed (ls.foldl (fun y l => addListener P l y) x) := by
  induction ls generalizing x with
  | nil => exact h
  | cons l ls ih => exact ih _ (subscribed_addListener P l x h)

theorem subscribed_step (P : Platform) (x : World) (o : Op)
    (h : Subscribed x) : Subscribed (step P x o) := by
  cases o with
  | addListener l => exact subscribed_addListener P l x h
  | removeListener l => exact subscribed_removeListener l x h
  | emit t => exact subscribed_emit P t x h
  | handleEvent =>
    simp only [step, handleEvent]
    split
    · have := subscribed_emit P (jsOr (x.self._lastAction.map Action.toString) "POP") x h
      simpa [Subscribed] using this
    · simpa [Subscribed, _ensureSlash, replace, Window.locationReplace] using h
  | push p => simpa [step, push, Subscribed, Window.assignHash] using h
  | replace p => simpa [step, replace, Subscribed, Window.locationReplace] using h
  | pop => simpa [step, pop, Subscribed, Window.historyBack] using h
  | dispose =>
    by_cases hl : x.self._isListening = true
    · simp only [Subscribed, hl] at h
      simp [step, dispose, Subscribed, Window.removeEventListener, h]
    · simp only [Subscribed, hl] at h
      simp [step, dispose, Subscribed, Window.removeEventListener, h]
  | navigate loc => simpa [step, navigate, Subscribed] using h
  | runPending =>
    simp only [step, runPending]
    split
    · exact subscribed_foldl_addListener P _ _ (by simpa [Subscribed] using h)
    · exact h

theorem subscribed_run (P : Platform) (ops : List Op) (x : World)
    (h : Subscribed x) : Subscribed (run P ops x) := by
  induction ops generalizing x with
  | nil => exact h
  | cons o ops ih => exact ih _ (subscribed_step P x o h)

/-- With a leading slash and the subscription already held, `addListener`
does not touch the window, the flag or the URL test. -/
theorem addListener_listening (P : Platform) (l : Listener) (x : World)
    (hs : _hasSlash P x = true) (hl : x.self._isListening = true) :
    (addListener P l x).window = x.window ∧ (addListener P l x).self._isListening = true := by
  simp [addListener, hs, hl]

/-- With a leading slash and no subscription yet, `addListener` makes the one
`addEventListener` call. -/
theorem addListener_first (P : Platform) (l : Listener) (x : World)
    (hs : _hasSlash P x = true) (hl : x.self._isListening = false) :
    (addListener P l x).window.calls =
        x.window.calls ++ [PlatformCall.addEventListener "hashchange" Handler.this false] ∧
      (addListener P l x).window.location = x.window.location ∧
      (addListener P l x).self._isListening = true := by
  simp [addListener, hs, hl, Window.addEventListener]

theorem calls_run_addListener (P : Platform) (ls : List Listener) (x : World)
    (hs : _hasSlash P x = true) (hl : x.self._isListening = true) :
    (run P (ls.map Op.addListener) x).window = x.window := by
  induction ls generalizing x with
  | nil => rfl
  | cons l ls ih =>
    have h1 := addListener_listening P l x hs hl
    have hs1 : _hasSlash P (addListener P l x) = true := by
      rw [hasSlash_congr P (congrArg Window.location h1.1)]; exact hs
    have := ih (addListener P l x) hs1 h1.2
    simpa [run, step, h1.1] using this

end HashLocation

namespace HistoryLocation

/-- The adapter is registered on `window` for `popstate` exactly when
`_isListening` is set, and never more than once. -/
def Subscribed (x : World) : Prop :=
  x.window.handlers = if x.self._isListening then [("popstate", false)] else []

theorem subscribed_fresh_history (loc : Location) : Subscribed (World.fresh loc) := by
  simp [Subscribed, World.fresh, State.new, Window.untouched]

theorem subscribed_addListener_history (l : Listener) (x : World)
    (h : Subscribed x) : Subscribed (addListener l x) := by
  unfold addListener
  by_cases hl : x.self._isListening = true
  · simpa [hl, Subscribed] using h
  · simp only [Subscribed, hl] at h
    simp [hl, Subscribed, Window.addEventListener, h]

theorem subscribed_removeListener_history (l : Listener) (x : World)
    (h : Subscribed x) : Subscribed (removeListener l x) := by
  unfold removeListener
  by_cases hz : (x.self._listeners.delete l).size = 0
  · by_cases hl : x.self._isListening = true
    · simp only [Subscribed, hl] at h
      simp [hz, Subscribed, Window.removeEventListener, h]
    · simp only [Subscribed, hl] at h
      simp [hz, Subscribed, Window.removeEventListener, h]
  · simpa [hz, Subscribed] using h

theorem subscribed_step_history (P : Platform) (x : World) (o : Op)
    (h : Subscribed x) : Subscribed (step P x o) := by
  cases o with
  | addListener l => exact subscribed_addListener_history l x h
  | removeListener l => exact subscribed_removeListener_history l x h
  | emit t => simpa [step, emit, Subscribed] using h
  | handleEvent e =>
    simp only [step, handleEvent]
    split
    · exact h
    · simpa [emit, Subscribed] using h
  | push p => simpa [step, push, emit, Subscribed, Window.pushState] using h
  | replace p => simpa [step, replace, emit, Subscribed, Window.replaceState] using h
  | pop => simpa [step, pop, Subscribed, Window.historyBack] using h
  | dispose =>
    by_cases hl : x.self._isListening = true
    · simp only [Subscribed, hl] at h
      simp [step, dispose, Subscribed, Window.removeEventListener, h]
    · simp only [Subscribed, hl] at h
      simp [step, dispose, Subscribed, Window.removeEventListener, h]
  | navigate loc => simpa [step, navigate, Subscribed] using h

theorem subscribed_run_history (P : Platform) (ops : List Op) (x : World)
    (h : Subscribed x) : Subscribed (run P ops x) := by
  induction ops generalizing x with
  | nil => exact h
  | cons o ops ih => exact ih _ (subscribed_step_history P x o h)

theorem calls_run_addListener_history (P : Platform) (ls : List Listener) (x : World)
    (hl : x.self._isListening = true) :
    (run P (ls.map Op.addListener) x).window = x.window := by
  induction ls generalizing x with
  | nil => rfl
  | cons l ls ih =>
    have h1 : (addListener l x).window = x.window ∧
        (addListener l x).self._isListening = true := by
      simp [addListener, hl]
    have := ih (addListener l x) h1.2
    simpa [run, step, h1.1] using this

end HistoryLocation

/-- C2: on both adapters the adapter holds at most one platform subscription,
and holds it exactly when `_isListening` is true (in every reachable state the
registry of `window` holds the adapter once if `_isListening`, not at all
otherwise); for any sequence of `addListener` calls on a fresh adapter (the
fragment beginning with `/` for `HashLocation`) the log of platform calls is
the single `addEventListener(type, this, false)` of the first call, however
many listeners follow; and `removeListener` of the last remaining listener
calls `removeEventListener` with the same event name, the adapter and `false`,
sets `_isListening` to false and leaves no subscription. -/
theorem one_subscription_while_listening (P : Platform) (loc : Location) :
    ((∀ ops : List HashLocation.Op,
        (HashLocation.reach P loc ops).window.handlers =
          if (HashLocation.reach P loc ops).self._isListening then [("hashchange", false)]
          else []) ∧
      (∀ (l : Listener) (ls : List Listener),
        HashLocation._hasSlash P (HashLocation.World.fresh loc) = true →
        (HashLocation.reach P loc
            ((l :: ls).map HashLocation.Op.addListener)).window.calls =
          [PlatformCall.addEventListener "hashchange" Handler.this false]) ∧
      (∀ (ops : List HashLocation.Op) (l : Listener),
        (HashLocation.reach P loc ops).self._listeners.items = [l] →
        (HashLocation.removeListener l (HashLocation.reach P loc ops)).window.calls =
            (HashLocation.reach P loc ops).window.calls ++
              [PlatformCall.removeEventListener "hashchange" Handler.this false] ∧
          (HashLocation.removeListener l (HashLocation.reach P loc ops)).self._isListening
            = false ∧
          (HashLocation.removeListener l (HashLocation.reach P loc ops)).window.handlers
            = [])) ∧
    ((∀ ops : List HistoryLocation.Op,
        (HistoryLocation.reach P loc ops).window.handlers =
          if (HistoryLocation.reach P loc ops).self._isListening then [("popstate", false)]
          else []) ∧
      (∀ (l : Listener) (ls : List Listener),
        (HistoryLocation.reach P loc
            ((l :: ls).map HistoryLocation.Op.addListener)).window.calls =
          [PlatformCall.addEventListener "popstate" Handler.this false]) ∧
      (∀ (ops : List HistoryLocation.Op) (l : Listener),
        (HistoryLocation.reach P loc ops).self._listeners.items = [l] →
        (HistoryLocation.removeListener l (HistoryLocation.reach P loc ops)).window.calls =
            (HistoryLocation.reach P loc ops).window.calls ++
              [PlatformCall.removeEventListener "popstate" Handler.this false] ∧
          (HistoryLocation.removeListener l (HistoryLocation.reach P loc ops)).self._isListening
            = false ∧
          (HistoryLocation.removeListener l (HistoryLocation.reach P loc ops)).window.handlers
            = [])) := by
  refine ⟨⟨?_, ?_, ?_⟩, ⟨?_, ?_, ?_⟩⟩
  · intro ops
    exact HashLocation.subscribed_run P ops _ (HashLocation.subscribed_fresh loc)
  · intro l ls hs
    have h1 := HashLocation.addListener_first P l (HashLocation.World.fresh loc) hs rfl
    have hs1 : HashLocation._hasSlash P
        (HashLocation.addListener P l (HashLocation.World.fresh loc)) = true := by
      rw [HashLocation.hasSlash_congr P h1.2.1]; exact hs
    have h2 := HashLocation.calls_run_addListener P ls _ hs1 h1.2.2
    have h3 : HashLocation.reach P loc ((l :: ls).map HashLocation.Op.addListener) =
        HashLocation.run P (ls.map HashLocation.Op.addListener)
          (HashLocation.addListener P l (HashLocation.World.fresh loc)) := rfl
    rw [h3, h2, h1.1]
    rfl
  · intro ops l hl
    have hsub : HashLocation.Subscribed (HashLocation.reach P loc ops) :=
      HashLocation.subscribed_run P ops _ (HashLocation.subscribed_fresh loc)
    have hz : ((HashLocation.reach P loc ops).self._listeners.delete l).size = 0 := by
      simp [ListenerSet.size, ListenerSet.delete, hl]
    unfold HashLocation.Subscribed at hsub
    by_cases hb : (HashLocation.reach P loc ops).self._isListening = true
    · simp only [hb, if_true] at hsub
      simp [HashLocation.removeListener, hz, Window.removeEventListener, hsub]
    · simp only [hb] at hsub
      simp [HashLocation.removeListener, hz, Window.removeEventListener, hsub]
  · intro ops
    exact HistoryLocation.subscribed_run_history P ops _ (HistoryLocation.subscribed_fresh_history loc)
  · intro l ls
    have h1 : (HistoryLocation.addListener l (HistoryLocation.World.fresh loc)).window.calls =
          [PlatformCall.addEventListener "popstate" Handler.this false] ∧
        (HistoryLocation.addListener l (HistoryLocation.World.fresh loc)).self._isListening
          = true := by
      simp [HistoryLocation.addListener, HistoryLocation.World.fresh, HistoryLocation.State.new,
        Window.addEventListener, Window.untouched]
    have h2 := HistoryLocation.calls_run_addListener_history P ls _ h1.2
    have h3 : HistoryLocation.reach P loc ((l :: ls).map HistoryLocation.Op.addListener) =
        HistoryLocation.run P (ls.map HistoryLocation.Op.addListener)
          (HistoryLocation.addListener l (HistoryLocation.World.fresh loc)) := rfl
    rw [h3, h2, h1.1]
  · intro ops l hl
    have hsub : HistoryLocation.Subscribed (HistoryLocation.reach P loc ops) :=
      HistoryLocation.subscribed_run_history P ops _ (HistoryLocation.subscribed_fresh_history loc)
    have hz : ((HistoryLocation.reach P loc ops).self._listeners.delete l).size = 0 := by
      simp [ListenerSet.size, ListenerSet.delete, hl]
    unfold HistoryLocation.Subscribed at hsub
    by_cases hb : (HistoryLocation.reach P loc ops).self._isListening = true
    · simp only [hb, if_true] at hsub
      simp [HistoryLocation.removeListener, hz, Window.removeEventListener, hsub]
    · simp only [hb] at hsub
      simp [HistoryLocation.removeListener, hz, Window.removeEventListener, hsub]

/-- C2 at a concrete input: in the reference browser at
`http://example.com/path/to#/path/to`, three `addListener` calls on a fresh
`HashLocation` make one `addEventListener` call, and removing the only
listener of an adapter makes the `removeEventListener` call. -/
theorem one_subscription_while_listening_witness :
    HashLocation._hasSlash Browser.browser
        (HashLocation.World.fresh Browser.slashLocation) = true ∧
      (HashLocation.reach Browser.browser Browser.slashLocation
          ([7, 8, 9].map HashLocation.Op.addListener)).window.calls =
        [PlatformCall.addEventListener "hashchange" Handler.this false] ∧
      (HashLocation.reach Browser.browser Browser.slashLocation
          [HashLocation.Op.addListener 7]).self._listeners.items = [7] ∧
      (HashLocation.removeListener 7
          (HashLocation.reach Browser.browser Browser.slashLocation
            [HashLocation.Op.addListener 7])).window.handlers = [] :=
  ⟨by decide,
   (one_subscription_while_listening Browser.browser Browser.slashLocation).1.2.1 7 [8, 9]
     (by decide),
   by decide,
   ((one_subscription_while_listening Browser.browser Browser.slashLocation).1.2.2
     [HashLocation.Op.addListener 7] 7 (by decide)).2.2⟩

/-! ## C3: `emit` reaches every registered listener once -/

theorem invocations_append (a b : List (Listener × Change)) (l : Listener) :
    invocations (a ++ b) l = invocations a l ++ invocations b l := by
  simp [invocations]

theorem invocations_map_of_not_mem (items : List Listener) (c : Change) (l : Listener)
    (h : l ∉ items) : invocations (items.map (fun k => (k, c))) l = [] := by
  induction items with
  | nil => rfl
  | cons a items ih =>
    have ha : a ≠ l := fun e => h (e ▸ List.mem_cons_self a items)
    have hi : l ∉ items := fun m => h (List.mem_cons_of_mem a m)
    have := ih hi
    simp only [invocations] at this
    simp [invocations, ha, this]

theorem invocations_map_of_nodup (items : List Listener) (hn : items.Nodup) (c : Change)
    (l : Listener) :
    invocations (items.map (fun k => (k, c))) l = if l ∈ items then [c] else [] := by
  induction items with
  | nil => rfl
  | cons a items ih =>
    have hn2 := List.nodup_cons.mp hn
    by_cases ha : a = l
    · subst ha
      have := invocations_map_of_not_mem items c a hn2.1
      simp only [invocations] at this
      simp [invocations, this]
    · have := ih hn2.2
      have hla : ¬ l = a := fun e => ha e.symm
      simp only [invocations] at this
      simp [invocations, ha, hla, this]

theorem invocations_batch (s : ListenerSet) (c : Change) (l : Listener) :
    invocations (s.items.map (fun k => (k, c))) l = if s.has l = true then [c] else [] := by
  rw [invocations_map_of_nodup s.items s.nodup c l]
  simp [ListenerSet.has]

namespace HashLocation

theorem emit_window (P : Platform) (t : String) (x : World) : (emit P t x).window = x.window := by
  unfold emit
  by_cases ht : t = "PUSH" <;> simp [ht]

theorem emit_listeners (P : Platform) (t : String) (x : World) :
    (emit P t x).self._listeners = x.self._listeners := by
  unfold emit
  by_cases ht : t = "PUSH" <;> simp [ht]

theorem emit_delivered (P : Platform) (t : String) (x : World) :
    (emit P t x).delivered =
      x.delivered ++ x.self._listeners.items.map (fun l => (l, Change.mk (current P x) t)) := by
  unfold emit
  by_cases ht : t = "PUSH" <;> simp [ht, current]

theorem emit_invocations (P : Platform) (t : String) (x : World) (l : Listener) :
    invocations (emit P t x).delivered l =
      invocations x.delivered l ++
        if x.self._listeners.has l = true then [Change.mk (current P x) t] else [] := by
  rw [emit_delivered, invocations_append, invocations_batch]

end HashLocation

namespace HistoryLocation

theorem emit_invocations_history (P : Platform) (t : String) (x : World) (l : Listener) :
    invocations (emit P t x).delivered l =
      invocations x.delivered l ++
        if x.self._listeners.has l = true then [Change.mk (current P x) t] else [] := by
  unfold emit
  rw [invocations_append, invocations_batch]

end HistoryLocation

/-- C3: on both adapters, for every type and every listener set, one
`emit(type)` call invokes every registered listener exactly once, with the
change whose type is the given type and whose path is the adapter's current
path, and invokes no listener that is not registered: the invocations of each
listener grow by that one change if it is registered and not at all
otherwise. -/
theorem emit_invokes_each_listener_once (P : Platform) (type : String) (l : Listener) :
    (∀ x : HashLocation.World,
      invocations (HashLocation.emit P type x).delivered l =
        invocations x.delivered l ++
          if x.self._listeners.has l = true then
            [{ path := HashLocation.current P x, type := type }]
          else []) ∧
    (∀ x : HistoryLocation.World,
      invocations (HistoryLocation.emit P type x).delivered l =
        invocations x.delivered l ++
          if x.self._listeners.has l = true then
            [{ path := HistoryLocation.current P x, type := type }]
          else []) :=
  ⟨fun x => HashLocation.emit_invocations P type x l,
   fun x => HistoryLocation.emit_invocations_history P type x l⟩

/-! ## C4: `push` and `replace` of `HistoryLocation` emit directly -/

namespace HistoryLocation

theorem push_invocations (P : Platform) (p : String) (x : World) (l : Listener) :
    invocations (push P p x).delivered l =
      invocations x.delivered l ++
        if x.self._listeners.has l = true then [Change.mk (current P (push P p x)) "PUSH"]
        else [] := by
  unfold push
  rw [emit_invocations_history]
  rfl

theorem replace_invocations (P : Platform) (p : String) (x : World) (l : Listener) :
    invocations (replace P p x).delivered l =
      invocations x.delivered l ++
        if x.self._listeners.has l = true then [Change.mk (current P (replace P p x)) "REPLACE"]
        else [] := by
  unfold replace
  rw [emit_invocations_history]
  rfl

end HistoryLocation

/-- C4: on `HistoryLocation`, for every path `p`, `push(p)` delivers exactly
one change of type `PUSH`, and `replace(p)` exactly one change of type
`REPLACE`, to every registered listener (and to no other), before it returns;
the path of the change is the current path read once the platform has
processed `pushState` / `replaceState`, which is called with state path `p`,
title `''` and URL `p`. In the reference browser, `push('/a')` then
`push('/b')` deliver to a registered listener two `PUSH` changes, with paths
`/a` then `/b`. -/
theorem history_push_replace_emit (P : Platform) (p : String) (x : HistoryLocation.World)
    (l : Listener) :
    (invocations (HistoryLocation.push P p x).delivered l =
        invocations x.delivered l ++
          if x.self._listeners.has l = true then
            [{ path := HistoryLocation.current P (HistoryLocation.push P p x), type := "PUSH" }]
          else []) ∧
    (HistoryLocation.push P p x).window.calls =
      x.window.calls ++ [PlatformCall.pushState p "" p] ∧
    (HistoryLocation.push P p x).window.location = P.pushState x.window.location p ∧
    (invocations (HistoryLocation.replace P p x).delivered l =
        invocations x.delivered l ++
          if x.self._listeners.has l = true then
            [{ path := HistoryLocation.current P (HistoryLocation.replace P p x),
               type := "REPLACE" }]
          else []) ∧
    (HistoryLocation.replace P p x).window.calls =
      x.window.calls ++ [PlatformCall.replaceState p "" p] ∧
    (HistoryLocation.replace P p x).window.location = P.replaceState x.window.location p ∧
    invocations
        (HistoryLocation.reach Browser.browser Browser.testLocation
          [HistoryLocation.Op.addListener 1, HistoryLocation.Op.push "/a",
            HistoryLocation.Op.push "/b"]).delivered 1 =
      [{ path := "/a", type := "PUSH" }, { path := "/b", type := "PUSH" }] :=
  ⟨HistoryLocation.push_invocations P p x l, rfl, rfl,
   HistoryLocation.replace_invocations P p x l, rfl, rfl, by decide⟩

/-! ## C5: the path read back after `push` -/

theorem splitChars_of_not_mem (c : Char) (b : List Char) (h : c ∉ b) :
    splitChars c b = [b] := by
  induction b with
  | nil => rfl
  | cons a b ih =>
    have ha : a ≠ c := fun e => h (e ▸ List.mem_cons_self a b)
    have hb : c ∉ b := fun m => h (List.mem_cons_of_mem a m)
    simp [splitChars, ha, ih hb]

theorem splitChars_append (c : Char) (a b : List Char) (h : c ∉ a) :
    splitChars c (a ++ c :: b) = a :: splitChars c b := by
  induction a with
  | nil => simp [splitChars]
  | cons a0 a ih =>
    have h0 : a0 ≠ c := fun e => h (e ▸ List.mem_cons_self a0 a)
    have ha : c ∉ a := fun m => h (List.mem_cons_of_mem a0 m)
    simp [splitChars, h0, ih ha]

theorem jsSplit_hash (base p : String) (hb : '#' ∉ base.data) (hp : '#' ∉ p.data) :
    jsSplit (base ++ "#" ++ p) '#' = [base, p] := by
  have hd : (base ++ "#" ++ p).data = base.data ++ '#' :: p.data := by
    simp [String.data_append]
  simp [jsSplit, hd, splitChars_append _ _ _ hb, splitChars_of_not_mem _ _ hp]

theorem jsOr_some_empty (s : String) : jsOr (some s) "" = s := by
  unfold jsOr
  by_cases h : s = "" <;> simp [h]

/-- C5 fails as stated: in the reference browser at
`http://example.com/path/to`, after `push('/%41')` the current path of either
adapter is `/A`, the percent-decoding of what was pushed, and after
`push('/a#b')` it is `/a`, the part before the `#`. -/
theorem push_current_not_path :
    HashLocation.current Browser.browser
        (HashLocation.push Browser.browser "/%41"
          (HashLocation.World.fresh Browser.testLocation)) = "/A" ∧
      HistoryLocation.current Browser.browser
        (HistoryLocation.push Browser.browser "/%41"
          (HistoryLocation.World.fresh Browser.testLocation)) = "/A" ∧
      HashLocation.current Browser.browser
        (HashLocation.push Browser.browser "/%41"
          (HashLocation.World.fresh Browser.testLocation)) ≠ "/%41" ∧
      HistoryLocation.current Browser.browser
        (HistoryLocation.push Browser.browser "/%41"
          (HistoryLocation.World.fresh Browser.testLocation)) ≠ "/%41" ∧
      HashLocation.current Browser.browser
        (HashLocation.push Browser.browser "/a#b"
          (HashLocation.World.fresh Browser.testLocation)) = "/a" ∧
      HistoryLocation.current Browser.browser
        (HistoryLocation.push Browser.browser "/a#b"
          (HistoryLocation.World.fresh Browser.testLocation)) = "/a" := by
  decide

/-- C5, amended: for every path `p` that `decodeURI` leaves unchanged, after
`push(p)` the current path equals `p` on `HashLocation` when `p` contains no
`#` and the URL read back is a `#`-free prefix, `#` and the fragment `p`
written by `push`, and on `HistoryLocation` when the URL pushed with
`pushState` is read back with `pathname + search` equal to `p`. -/
theorem push_current_eq_path (P : Platform) (p : String) (hdec : P.decodeURI p = p) :
    (∀ (x : HashLocation.World) (base : String),
      '#' ∉ base.data → '#' ∉ p.data →
      (P.assignHash x.window.location p).href = base ++ "#" ++ p →
      HashLocation.current P (HashLocation.push P p x) = p) ∧
    (∀ x : HistoryLocation.World,
      (P.pushState x.window.location p).pathname ++ (P.pushState x.window.location p).search
        = p →
      HistoryLocation.current P (HistoryLocation.push P p x) = p) := by
  constructor
  · intro x base hb hp hh
    have : (HashLocation.push P p x).window.location.href = base ++ "#" ++ p := hh
    simp [HashLocation.current, this, jsSplit_hash base p hb hp, jsOr_some_empty, hdec]
  · intro x hh
    have : HistoryLocation.current P (HistoryLocation.push P p x) =
        P.decodeURI ((P.pushState x.window.location p).pathname ++
          (P.pushState x.window.location p).search) := rfl
    rw [this, hh, hdec]

/-- C5, amended, at a concrete input: `push('/file/name')` on either adapter
in the reference browser at `http://example.com/path/to`. -/
theorem push_current_eq_path_witness :
    Browser.browser.decodeURI "/file/name" = "/file/name" ∧
      HashLocation.current Browser.browser
        (HashLocation.push Browser.browser "/file/name"
          (HashLocation.World.fresh Browser.testLocation)) = "/file/name" ∧
      HistoryLocation.current Browser.browser
        (HistoryLocation.push Browser.browser "/file/name"
          (HistoryLocation.World.fresh Browser.testLocation)) = "/file/name" :=
  ⟨by decide,
   (push_current_eq_path Browser.browser "/file/name" (by decide)).1
     (HashLocation.World.fresh Browser.testLocation) "http://example.com/path/to"
     (by decide) (by decide) (by decide),
   (push_current_eq_path Browser.browser "/file/name" (by decide)).2
     (HistoryLocation.World.fresh Browser.testLocation) (by decide)⟩

/-! ## C6 and C7: the entry counter `_length` -/

namespace HistoryLocation

theorem length_step (P : Platform) (x : World) (o : Op) :
    (step P x o).self._length =
      if o = Op.dispose then 1
      else x.self._length + (if o.isPush = true then 1 else 0)
        - (if o = Op.pop then 1 else 0) := by
  cases o with
  | addListener l =>
    simp only [step, addListener]
    split <;> simp [Op.isPush]
  | removeListener l =>
    simp only [step, removeListener]
    split <;> simp [Op.isPush]
  | emit t => simp [step, emit, Op.isPush]
  | handleEvent e =>
    simp only [step, handleEvent]
    split <;> simp [emit, Op.isPush]
  | push p => simp [step, push, emit, Op.isPush]
  | replace p => simp [step, replace, emit, Op.isPush]
  | pop => simp [step, pop, Op.isPush]
  | dispose => simp [step, dispose]
  | navigate loc => simp [step, navigate, Op.isPush]

theorem length_run (P : Platform) (ops : List Op) (x : World)
    (h : ∀ o ∈ ops, o ≠ Op.dispose) :
    (run P ops x).self._length = x.self._length + (pushes ops : Int) - (pops ops : Int) := by
  induction ops generalizing x with
  | nil => simp [run, pushes, pops]
  | cons o ops ih =>
    have hrest : ∀ o2 ∈ ops, o2 ≠ Op.dispose := fun o2 m => h o2 (List.mem_cons_of_mem o m)
    have ho : o ≠ Op.dispose := h o (List.mem_cons_self o ops)
    have h1 := ih (step P x o) hrest
    have h2 := length_step P x o
    simp only [ho, if_false] at h2
    have h3 : run P (o :: ops) x = run P ops (step P x o) := rfl
    rw [h3, h1, h2]
    by_cases hp : o.isPush = true <;> by_cases hq : o = Op.pop <;>
      simp [pushes, pops, List.countP_cons, hp, hq] <;> omega

theorem length_lower_run_history (P : Platform) (ops : List Op) (x : World) :
    min x.self._length 1 - (pops ops : Int) ≤ (run P ops x).self._length := by
  induction ops generalizing x with
  | nil => simp [run, pops]
  | cons o ops ih =>
    have h1 := ih (step P x o)
    have h2 := length_step P x o
    have h3 : run P (o :: ops) x = run P ops (step P x o) := rfl
    rw [h3]
    by_cases hd : o = Op.dispose
    · have hc : pops (o :: ops) = pops ops := by simp [pops, List.countP_cons, hd]
      rw [if_pos hd] at h2
      rw [hc]
      omega
    · rw [if_neg hd] at h2
      by_cases hq : o = Op.pop
      · have hc : pops (o :: ops) = pops ops + 1 := by simp [pops, List.countP_cons, hq]
        have hp : o.isPush = false := by rw [hq]; rfl
        rw [if_pos hq, hp] at h2
        simp only [Bool.false_eq_true, if_false] at h2
        rw [hc]
        push_cast
        omega
      · have hc : pops (o :: ops) = pops ops := by simp [pops, List.countP_cons, hq]
        rw [if_neg hq] at h2
        rw [hc]
        by_cases hp : o.isPush = true
        · rw [if_pos hp] at h2; omega
        · rw [if_neg hp] at h2; omega

end HistoryLocation

namespace HashLocation

theorem length_addListener (P : Platform) (l : Listener) (x : World) :
    (addListener P l x).self._length = x.self._length := by
  unfold addListener
  by_cases hs : _hasSlash P x = true
  · by_cases hl : x.self._isListening = true <;> simp [hs, hl]
  · simp [hs, _ensureSlash, replace]

theorem length_foldl_addListener (P : Platform) (ls : List Listener) (x : World) :
    (ls.foldl (fun y l => addListener P l y) x).self._length = x.self._length := by
  induction ls generalizing x with
  | nil => rfl
  | cons l ls ih => simpa [length_addListener] using ih (addListener P l x)

theorem length_removeListener (l : Listener) (x : World) :
    (removeListener l x).self._length = x.self._length := by
  unfold removeListener
  by_cases hz : (x.self._listeners.delete l).size = 0 <;> simp [hz]

theorem length_emit (P : Platform) (t : String) (x : World) :
    (emit P t x).self._length = x.self._length + if t = "PUSH" then 1 else 0 := by
  unfold emit
  by_cases ht : t = "PUSH" <;> simp [ht]

theorem length_handleEvent_ge (P : Platform) (x : World) :
    x.self._length ≤ (handleEvent P x).self._length := by
  unfold handleEvent
  by_cases hs : _hasSlash P x = true
  · have := length_emit P (jsOr (x.self._lastAction.map Action.toString) "POP") x
    simp only [hs, if_true]
    show x.self._length ≤
      (emit P (jsOr (x.self._lastAction.map Action.toString) "POP") x).self._length
    rw [this]
    split <;> omega
  · simp [hs, _ensureSlash, replace]

theorem length_step_ge (P : Platform) (x : World) (o : Op)
    (hq : o ≠ Op.pop) (hd : o ≠ Op.dispose) :
    x.self._length ≤ (step P x o).self._length := by
  cases o with
  | addListener l => simp [step, length_addListener]
  | removeListener l => simp [step, length_removeListener]
  | emit t =>
    simp only [step, length_emit]
    split <;> omega
  | handleEvent => exact length_handleEvent_ge P x
  | push p => simp [step, push]
  | replace p => simp [step, replace]
  | pop => exact absurd rfl hq
  | dispose => exact absurd rfl hd
  | navigate loc => simp [step, navigate]
  | runPending =>
    simp only [step, runPending]
    split
    · simp [length_foldl_addListener]
    · exact le_refl _

theorem length_lower_run (P : Platform) (ops : List Op) (x : World) :
    min x.self._length 1 - (pops ops : Int) ≤ (run P ops x).self._length := by
  induction ops generalizing x with
  | nil => simp [run, pops]
  | cons o ops ih =>
    have h1 := ih (step P x o)
    have h3 : run P (o :: ops) x = run P ops (step P x o) := rfl
    rw [h3]
    by_cases hq : o = Op.pop
    · have hc : pops (o :: ops) = pops ops + 1 := by simp [pops, List.countP_cons, hq]
      have h2 : (step P x o).self._length = x.self._length - 1 := by rw [hq]; rfl
      rw [hc]
      push_cast
      omega
    · have hc : pops (o :: ops) = pops ops := by simp [pops, List.countP_cons, hq]
      rw [hc]
      by_cases hd : o = Op.dispose
      · have h2 : (step P x o).self._length = 1 := by rw [hd]; rfl
        omega
      · have h2 := length_step_ge P x o hq hd
        omega

end HashLocation

/-- C6: on `HistoryLocation`, `_length` is 1 after construction, every
`push(p)` increases it by exactly 1, every `pop()` decreases it by exactly 1
and `replace(p)` leaves it unchanged; so after any sequence of calls without
`dispose()` from a fresh adapter, `_length` equals 1 + (number of pushes) -
(number of pops). -/
theorem history_length_counts (P : Platform) (loc : Location) :
    (HistoryLocation.World.fresh loc).self._length = 1 ∧
    (∀ (x : HistoryLocation.World) (p : String),
      (HistoryLocation.push P p x).self._length = x.self._length + 1) ∧
    (∀ x : HistoryLocation.World,
      (HistoryLocation.pop x).self._length = x.self._length - 1) ∧
    (∀ (x : HistoryLocation.World) (p : String),
      (HistoryLocation.replace P p x).self._length = x.self._length) ∧
    (∀ ops : List HistoryLocation.Op, (∀ o ∈ ops, o ≠ HistoryLocation.Op.dispose) →
      (HistoryLocation.reach P loc ops).self._length =
        1 + (HistoryLocation.pushes ops : Int) - (HistoryLocation.pops ops : Int)) :=
  ⟨rfl, fun _ _ => rfl, fun _ => rfl, fun _ _ => rfl,
   fun ops h => HistoryLocation.length_run P ops (HistoryLocation.World.fresh loc) h⟩

/-- C6 at a concrete input: two pushes, a replace and a pop in the reference
browser leave `_length` at 2. -/
theorem history_length_counts_witness :
    (HistoryLocation.reach Browser.browser Browser.testLocation
        [HistoryLocation.Op.push "/a", HistoryLocation.Op.replace "/c",
          HistoryLocation.Op.push "/b", HistoryLocation.Op.pop]).self._length = 1 + 2 - 1 :=
  (history_length_counts Browser.browser Browser.testLocation).2.2.2.2
    [HistoryLocation.Op.push "/a", HistoryLocation.Op.replace "/c",
      HistoryLocation.Op.push "/b", HistoryLocation.Op.pop] (by decide)

/-- C7 fails as stated: two `pop()` calls on a freshly constructed adapter of
either kind leave `_length` at -1. -/
theorem length_negative_after_two_pops :
    (HashLocation.reach Browser.browser Browser.testLocation
        [HashLocation.Op.pop, HashLocation.Op.pop]).self._length = -1 ∧
      (HistoryLocation.reach Browser.browser Browser.testLocation
        [HistoryLocation.Op.pop, HistoryLocation.Op.pop]).self._length = -1 ∧
      ¬ (0 ≤ (HashLocation.reach Browser.browser Browser.testLocation
        [HashLocation.Op.pop, HashLocation.Op.pop]).self._length) ∧
      ¬ (0 ≤ (HistoryLocation.reach Browser.browser Browser.testLocation
        [HistoryLocation.Op.pop, HistoryLocation.Op.pop]).self._length) := by
  decide

/-- C7, amended: on both adapters, in every state reached from a freshly
constructed adapter by any sequence of calls, `_length` is an integer that is
at least 1 minus the number of `pop()` calls of the sequence; so it is at
least 0 as long as the sequence has at most one `pop()`. -/
theorem length_lower_bound (P : Platform) (loc : Location) :
    (∀ ops : List HashLocation.Op,
      1 - (HashLocation.pops ops : Int) ≤ (HashLocation.reach P loc ops).self._length) ∧
    (∀ ops : List HashLocation.Op, HashLocation.pops ops ≤ 1 →
      0 ≤ (HashLocation.reach P loc ops).self._length) ∧
    (∀ ops : List HistoryLocation.Op,
      1 - (HistoryLocation.pops ops : Int) ≤ (HistoryLocation.reach P loc ops).self._length) ∧
    (∀ ops : List HistoryLocation.Op, HistoryLocation.pops ops ≤ 1 →
      0 ≤ (HistoryLocation.reach P loc ops).self._length) := by
  have hA : ∀ ops : List HashLocation.Op,
      1 - (HashLocation.pops ops : Int) ≤ (HashLocation.reach P loc ops).self._length := by
    intro ops
    have := HashLocation.length_lower_run P ops (HashLocation.World.fresh loc)
    simpa [HashLocation.reach, HashLocation.World.fresh, HashLocation.State.new] using this
  have hB : ∀ ops : List HistoryLocation.Op,
      1 - (HistoryLocation.pops ops : Int) ≤
        (HistoryLocation.reach P loc ops).self._length := by
    intro ops
    have := HistoryLocation.length_lower_run_history P ops (HistoryLocation.World.fresh loc)
    simpa [HistoryLocation.reach, HistoryLocation.World.fresh, HistoryLocation.State.new]
      using this
  refine ⟨hA, ?_, hB, ?_⟩
  · intro ops h
    have := hA ops
    omega
  · intro ops h
    have := hB ops
    omega

/-- C7, amended, at a concrete input: a push, its event and one pop on a
`HashLocation` in the reference browser. -/
theorem length_lower_bound_witness :
    0 ≤ (HashLocation.reach Browser.browser Browser.testLocation
        [HashLocation.Op.push "/a", HashLocation.Op.handleEvent,
          HashLocation.Op.pop]).self._length ∧
      0 ≤ (HistoryLocation.reach Browser.browser Browser.testLocation
        [HistoryLocation.Op.pop, HistoryLocation.Op.push "/a"]).self._length :=
  ⟨(length_lower_bound Browser.browser Browser.testLocation).2.1
     [HashLocation.Op.push "/a", HashLocation.Op.handleEvent, HashLocation.Op.pop]
     (by decide),
   (length_lower_bound Browser.browser Browser.testLocation).2.2.2
     [HistoryLocation.Op.pop, HistoryLocation.Op.push "/a"] (by decide)⟩

/-! ## C8: `handleEvent` of `HistoryLocation` -/

/-- C8 fails as stated: the event of an entry that carries no state attached
by the adapter has `state` equal to `null`, and on a `HistoryLocation` with
listener 1 in the reference browser `handleEvent` of such an event delivers a
`POP` change to the listener instead of doing nothing. -/
theorem history_handleEvent_null_emits :
    invocations
        (HistoryLocation.handleEvent Browser.browser
          { state := HistoryLocation.EventState.null }
          (HistoryLocation.reach Browser.browser Browser.testLocation
            [HistoryLocation.Op.addListener 1])).delivered 1 =
      [{ path := "/path/to", type := "POP" }] ∧
    invocations
        (HistoryLocation.reach Browser.browser Browser.testLocation
          [HistoryLocation.Op.addListener 1]).delivered 1 = [] ∧
    HistoryLocation.handleEvent Browser.browser
        { state := HistoryLocation.EventState.null }
        (HistoryLocation.reach Browser.browser Browser.testLocation
          [HistoryLocation.Op.addListener 1]) ≠
      HistoryLocation.reach Browser.browser Browser.testLocation
        [HistoryLocation.Op.addListener 1] := by
  decide

/-- C8, amended: on `HistoryLocation`, `handleEvent(event)` emits nothing and
changes nothing whenever `event.state` is `undefined`, and for every other
`event.state` (an object attached by the adapter, or `null`) delivers exactly
one change of type `POP`, with the current path, to every registered listener
and to no other, the adapter's fields and the window staying as they are. -/
theorem history_handleEvent (P : Platform) (event : HistoryLocation.PopStateEvent)
    (x : HistoryLocation.World) (l : Listener) :
    (event.state = HistoryLocation.EventState.undefined →
      HistoryLocation.handleEvent P event x = x) ∧
    (event.state ≠ HistoryLocation.EventState.undefined →
      invocations (HistoryLocation.handleEvent P event x).delivered l =
          invocations x.delivered l ++
            (if x.self._listeners.has l = true then
              [{ path := HistoryLocation.current P x, type := "POP" }]
            else []) ∧
        (HistoryLocation.handleEvent P event x).self = x.self ∧
        (HistoryLocation.handleEvent P event x).window = x.window) := by
  constructor
  · intro h
    simp [HistoryLocation.handleEvent, h]
  · intro h
    have he : HistoryLocation.handleEvent P event x = HistoryLocation.emit P "POP" x := by
      simp [HistoryLocation.handleEvent, h]
    rw [he]
    exact ⟨HistoryLocation.emit_invocations_history P "POP" x l, rfl, rfl⟩

/-- C8, amended, at concrete inputs: an event whose `state` is `undefined`,
one with the payload attached by `push('/a')`, and one whose `state` is
`null`, on an adapter with listener 1 in the reference browser. -/
theorem history_handleEvent_witness :
    HistoryLocation.handleEvent Browser.browser
        { state := HistoryLocation.EventState.undefined }
        (HistoryLocation.reach Browser.browser Browser.testLocation
          [HistoryLocation.Op.addListener 1]) =
      HistoryLocation.reach Browser.browser Browser.testLocation
        [HistoryLocation.Op.addListener 1] ∧
    invocations
        (HistoryLocation.handleEvent Browser.browser
          { state := HistoryLocation.EventState.object "/a" }
          (HistoryLocation.reach Browser.browser Browser.testLocation
            [HistoryLocation.Op.addListener 1])).delivered 1 =
      [{ path := "/path/to", type := "POP" }] ∧
    invocations
        (HistoryLocation.handleEvent Browser.browser
          { state := HistoryLocation.EventState.null }
          (HistoryLocation.reach Browser.browser Browser.testLocation
            [HistoryLocation.Op.addListener 1])).delivered 1 =
      [{ path := "/path/to", type := "POP" }] :=
  ⟨(history_handleEvent Browser.browser { state := HistoryLocation.EventState.undefined }
      (HistoryLocation.reach Browser.browser Browser.testLocation
        [HistoryLocation.Op.addListener 1]) 1).1 rfl,
   ((history_handleEvent Browser.browser { state := HistoryLocation.EventState.object "/a" }
      (HistoryLocation.reach Browser.browser Browser.testLocation
        [HistoryLocation.Op.addListener 1]) 1).2 (by decide)).1,
   ((history_handleEvent Browser.browser { state := HistoryLocation.EventState.null }
      (HistoryLocation.reach Browser.browser Browser.testLocation
        [HistoryLocation.Op.addListener 1]) 1).2 (by decide)).1⟩

/-! ## C9 and C10: `handleEvent` of `HashLocation` -/

namespace HashLocation

/-- The getter `_hasSlash` holds exactly when the current path begins with `/`. -/
theorem hasSlash_iff (P : Platform) (x : World) :
    _hasSlash P x = true ↔ (current P x).data.head? = some '/' := by
  unfold _hasSlash charAt
  cases hc : (current P x).data with
  | nil => simp [String.ext_iff]
  | cons a r => simp [String.ext_iff]

theorem jsOr_lastAction (la : Option Action) :
    jsOr (la.map Action.toString) "POP" = (la.map Action.toString).getD "POP" := by
  cases la with
  | none => rfl
  | some a => cases a <;> simp [jsOr, Action.toString]

theorem handleEvent_slash (P : Platform) (x : World) (hs : _hasSlash P x = true) :
    handleEvent P x =
      { emit P ((x.self._lastAction.map Action.toString).getD "POP") x with
        self :=
          { (emit P ((x.self._lastAction.map Action.toString).getD "POP") x).self with
            _lastAction := none } } := by
  simp [handleEvent, hs, jsOr_lastAction]

theorem handleEvent_slash_invocations (P : Platform) (x : World) (l : Listener)
    (hs : _hasSlash P x = true) :
    invocations (handleEvent P x).delivered l =
      invocations x.delivered l ++
        if x.self._listeners.has l = true then
          [Change.mk (current P x) ((x.self._lastAction.map Action.toString).getD "POP")]
        else [] := by
  rw [handleEvent_slash P x hs]
  exact emit_invocations P _ x l

theorem handleEvent_slash_after (P : Platform) (x : World) (hs : _hasSlash P x = true) :
    (handleEvent P x).self._lastAction = none ∧
      (handleEvent P x).self._listeners = x.self._listeners ∧
      (handleEvent P x).window = x.window := by
  rw [handleEvent_slash P x hs]
  exact ⟨rfl, emit_listeners P _ x, emit_window P _ x⟩

theorem handleEvent_noSlash (P : Platform) (x : World) (hs : _hasSlash P x = false) :
    handleEvent P x = _ensureSlash P x := by
  simp [handleEvent, hs]

end HashLocation

/-- C9: on `HashLocation`, whenever the current fragment begins with `/`,
`handleEvent()` delivers to every registered listener (and to no other)
exactly one change, whose type is `_lastAction` if it is set and `POP`
otherwise, and afterwards `_lastAction` is `null`; so a `handleEvent()` right
after `push`, `replace` or `pop` reports `PUSH`, `REPLACE` or `POP`, and a
second `handleEvent()` with no navigation call in between reports `POP`. -/
theorem hash_handleEvent_reports_lastAction (P : Platform) (l : Listener) :
    (∀ x : HashLocation.World, (HashLocation.current P x).data.head? = some '/' →
      invocations (HashLocation.handleEvent P x).delivered l =
          invocations x.delivered l ++
            (if x.self._listeners.has l = true then
              [{ path := HashLocation.current P x,
                 type := (x.self._lastAction.map HashLocation.Action.toString).getD "POP" }]
            else []) ∧
        (HashLocation.handleEvent P x).self._lastAction = none) ∧
    (∀ (x : HashLocation.World) (p : String),
      (HashLocation.current P (HashLocation.push P p x)).data.head? = some '/' →
      invocations (HashLocation.handleEvent P (HashLocation.push P p x)).delivered l =
        invocations x.delivered l ++
          if x.self._listeners.has l = true then
            [{ path := HashLocation.current P (HashLocation.push P p x), type := "PUSH" }]
          else []) ∧
    (∀ (x : HashLocation.World) (p : String),
      (HashLocation.current P (HashLocation.replace P p x)).data.head? = some '/' →
      invocations (HashLocation.handleEvent P (HashLocation.replace P p x)).delivered l =
        invocations x.delivered l ++
          if x.self._listeners.has l = true then
            [{ path := HashLocation.current P (HashLocation.replace P p x),
               type := "REPLACE" }]
          else []) ∧
    (∀ x : HashLocation.World,
      (HashLocation.current P (HashLocation.pop x)).data.head? = some '/' →
      invocations (HashLocation.handleEvent P (HashLocation.pop x)).delivered l =
        invocations x.delivered l ++
          if x.self._listeners.has l = true then
            [{ path := HashLocation.current P (HashLocation.pop x), type := "POP" }]
          else []) ∧
    (∀ x : HashLocation.World, (HashLocation.current P x).data.head? = some '/' →
      invocations
          (HashLocation.handleEvent P (HashLocation.handleEvent P x)).delivered l =
        invocations (HashLocation.handleEvent P x).delivered l ++
          if x.self._listeners.has l = true then
            [{ path := HashLocation.current P x, type := "POP" }]
          else []) := by
  refine ⟨?_, ?_, ?_, ?_, ?_⟩
  · intro x h
    have hs := (HashLocation.hasSlash_iff P x).mpr h
    exact ⟨HashLocation.handleEvent_slash_invocations P x l hs,
      (HashLocation.handleEvent_slash_after P x hs).1⟩
  · intro x p h
    have hs := (HashLocation.hasSlash_iff P _).mpr h
    exact HashLocation.handleEvent_slash_invocations P _ l hs
  · intro x p h
    have hs := (HashLocation.hasSlash_iff P _).mpr h
    exact HashLocation.handleEvent_slash_invocations P _ l hs
  · intro x h
    have hs := (HashLocation.hasSlash_iff P _).mpr h
    exact HashLocation.handleEvent_slash_invocations P _ l hs
  · intro x h
    have hs := (HashLocation.hasSlash_iff P x).mpr h
    have ha := HashLocation.handleEvent_slash_after P x hs
    have hs2 : HashLocation._hasSlash P (HashLocation.handleEvent P x) = true := by
      rw [HashLocation.hasSlash_congr P (congrArg Window.location ha.2.2)]; exact hs
    have h2 := HashLocation.handleEvent_slash_invocations P _ l hs2
    have hcur : HashLocation.current P (HashLocation.handleEvent P x) =
        HashLocation.current P x := by
      simp [HashLocation.current, ha.2.2]
    rw [h2, ha.1, ha.2.1, hcur]
    rfl

/-- C9 at a concrete input: in the reference browser, listener 1 of a
`HashLocation` at `http://example.com/path/to#/path/to` sees `PUSH` for the
event of `push('/a')` and `POP` for a second event. -/
theorem hash_handleEvent_reports_lastAction_witness :
    invocations
        (HashLocation.handleEvent Browser.browser
          (HashLocation.push Browser.browser "/a"
            (HashLocation.reach Browser.browser Browser.slashLocation
              [HashLocation.Op.addListener 1]))).delivered 1 =
      [{ path := "/a", type := "PUSH" }] ∧
    invocations
        (HashLocation.handleEvent Browser.browser
          (HashLocation.handleEvent Browser.browser
            (HashLocation.push Browser.browser "/a"
              (HashLocation.reach Browser.browser Browser.slashLocation
                [HashLocation.Op.addListener 1])))).delivered 1 =
      [{ path := "/a", type := "PUSH" }, { path := "/a", type := "POP" }] :=
  ⟨(hash_handleEvent_reports_lastAction Browser.browser 1).2.1
     (HashLocation.reach Browser.browser Browser.slashLocation
       [HashLocation.Op.addListener 1]) "/a" (by decide),
   ((hash_handleEvent_reports_lastAction Browser.browser 1).2.2.2.2
     (HashLocation.push Browser.browser "/a"
       (HashLocation.reach Browser.browser Browser.slashLocation
         [HashLocation.Op.addListener 1])) (by decide)).trans (by decide)⟩

/-- C10: on `HashLocation`, whenever the current fragment is empty or does not
begin with `/`, `handleEvent()` invokes no listener and does not change
`_length`, whatever `_lastAction` is. -/
theorem hash_handleEvent_without_slash (P : Platform) (x : HashLocation.World)
    (h : (HashLocation.current P x).data.head? ≠ some '/') :
    (HashLocation.handleEvent P x).delivered = x.delivered ∧
      (HashLocation.handleEvent P x).self._length = x.self._length := by
  have hs : HashLocation._hasSlash P x = false := by
    cases hb : HashLocation._hasSlash P x with
    | false => rfl
    | true => exact absurd ((HashLocation.hasSlash_iff P x).mp hb) h
  rw [HashLocation.handleEvent_noSlash P x hs]
  exact ⟨rfl, rfl⟩

/-- C10 at a concrete input: a `HashLocation` with listener 1 whose fragment
has become empty and whose `_lastAction` is `PUSH`. -/
theorem hash_handleEvent_without_slash_witness :
    (HashLocation.reach Browser.browser Browser.slashLocation
        [HashLocation.Op.addListener 1, HashLocation.Op.push ""]).self._lastAction =
      some HashLocation.Action.PUSH ∧
    (HashLocation.handleEvent Browser.browser
        (HashLocation.reach Browser.browser Browser.slashLocation
          [HashLocation.Op.addListener 1, HashLocation.Op.push ""])).delivered = [] ∧
    (HashLocation.handleEvent Browser.browser
        (HashLocation.reach Browser.browser Browser.slashLocation
          [HashLocation.Op.addListener 1, HashLocation.Op.push ""])).self._length = 1 :=
  ⟨by decide,
   (hash_handleEvent_without_slash Browser.browser
     (HashLocation.reach Browser.browser Browser.slashLocation
       [HashLocation.Op.addListener 1, HashLocation.Op.push ""]) (by decide)).1,
   (hash_handleEvent_without_slash Browser.browser
     (HashLocation.reach Browser.browser Browser.slashLocation
       [HashLocation.Op.addListener 1, HashLocation.Op.push ""]) (by decide)).2⟩

/-! ## C11: `handleEvent` without a leading slash and `_lastAction` -/

namespace HashLocation

theorem hasSlash_false_of_head (P : Platform) (x : World)
    (h : (current P x).data.head? ≠ some '/') : _hasSlash P x = false := by
  cases hb : _hasSlash P x with
  | false => rfl
  | true => exact absurd ((hasSlash_iff P x).mp hb) h

/-- What `_ensureSlash` leaves behind: `_lastAction` is `REPLACE`, the browser
has been asked to replace the URL, nothing else has moved. -/
theorem ensureSlash_effect (P : Platform) (x : World) :
    (_ensureSlash P x).self._lastAction = some Action.REPLACE ∧
      (_ensureSlash P x).self._length = x.self._length ∧
      (_ensureSlash P x).self._listeners = x.self._listeners ∧
      (_ensureSlash P x).self._isListening = x.self._isListening ∧
      (_ensureSlash P x).window.handlers = x.window.handlers ∧
      (_ensureSlash P x).window.calls =
        x.window.calls ++
          [PlatformCall.locationReplace
            (x.window.location.pathname ++ x.window.location.search ++ "#" ++
              ("/" ++ current P x))] ∧
      (_ensureSlash P x).delivered = x.delivered ∧
      (_ensureSlash P x).pending = x.pending :=
  ⟨rfl, rfl, rfl, rfl, rfl, rfl, rfl, rfl⟩

end HashLocation

/-- C11 fails as stated: on a fresh `HashLocation` at
`http://example.com/path/to` (empty fragment), after `pop()` the field
`_lastAction` is `POP`, and `handleEvent()` leaves it at `REPLACE`; with
`_lastAction` still `null` it leaves it at `REPLACE` as well. -/
theorem handleEvent_overwrites_lastAction :
    (HashLocation.reach Browser.browser Browser.testLocation
        [HashLocation.Op.pop]).self._lastAction = some HashLocation.Action.POP ∧
      HashLocation._hasSlash Browser.browser
        (HashLocation.reach Browser.browser Browser.testLocation
          [HashLocation.Op.pop]) = false ∧
      (HashLocation.handleEvent Browser.browser
        (HashLocation.reach Browser.browser Browser.testLocation
          [HashLocation.Op.pop])).self._lastAction = some HashLocation.Action.REPLACE ∧
      (HashLocation.World.fresh Browser.testLocation).self._lastAction = none ∧
      (HashLocation.handleEvent Browser.browser
        (HashLocation.World.fresh Browser.testLocation)).self._lastAction =
          some HashLocation.Action.REPLACE := by
  decide

/-- C11, amended: on `HashLocation`, whenever the current fragment does not
begin with `/`, `handleEvent()` runs `_ensureSlash`, whose `replace` call sets
`_lastAction` to `REPLACE`: for every prior value of `_lastAction`, after
`handleEvent()` returns `_lastAction` is `REPLACE`, so it is still the prior
value exactly when that was `REPLACE`. -/
theorem hash_handleEvent_without_slash_sets_replace (P : Platform) (x : HashLocation.World)
    (h : (HashLocation.current P x).data.head? ≠ some '/') :
    (HashLocation.handleEvent P x).self._lastAction = some HashLocation.Action.REPLACE ∧
      ((HashLocation.handleEvent P x).self._lastAction = x.self._lastAction ↔
        x.self._lastAction = some HashLocation.Action.REPLACE) ∧
      (HashLocation.handleEvent P x).window.calls =
        x.window.calls ++
          [PlatformCall.locationReplace
            (x.window.location.pathname ++ x.window.location.search ++ "#" ++
              ("/" ++ HashLocation.current P x))] := by
  rw [HashLocation.handleEvent_noSlash P x (HashLocation.hasSlash_false_of_head P x h)]
  refine ⟨rfl, ?_, rfl⟩
  rw [(HashLocation.ensureSlash_effect P x).1]
  exact ⟨fun e => e.symm, fun e => e.symm⟩

/-- C11, amended, at a concrete input: a `HashLocation` with empty fragment
whose `_lastAction` is `POP`. -/
theorem hash_handleEvent_without_slash_sets_replace_witness :
    (HashLocation.handleEvent Browser.browser
        (HashLocation.reach Browser.browser Browser.testLocation
          [HashLocation.Op.pop])).self._lastAction = some HashLocation.Action.REPLACE :=
  (hash_handleEvent_without_slash_sets_replace Browser.browser
    (HashLocation.reach Browser.browser Browser.testLocation [HashLocation.Op.pop])
    (by decide)).1

/-! ## C12 and C13: `addListener` of `HashLocation` and the leading slash -/

namespace ListenerSet

theorem mem_add (s : ListenerSet) (l a : Listener) :
    a ∈ (s.add l).items ↔ a ∈ s.items ∨ a = l := by
  unfold add
  split
  · constructor
    · intro h; exact Or.inl h
    · intro h
      cases h with
      | inl h => exact h
      | inr h => rw [h]; assumption
  · simp

theorem add_of_mem (s : ListenerSet) (l : Listener) (h : l ∈ s.items) : s.add l = s := by
  unfold add
  simp [h]

theorem items_add_of_not_mem (s : ListenerSet) (l : Listener) (h : l ∉ s.items) :
    (s.add l).items = s.items ++ [l] := by
  unfold add
  simp [h]

end ListenerSet

namespace HashLocation

theorem addListener_noSlash (P : Platform) (l : Listener) (x : World)
    (hs : _hasSlash P x = false) :
    addListener P l x =
      { _ensureSlash P x with pending := (_ensureSlash P x).pending ++ [l] } := by
  simp [addListener, hs]

theorem addListener_slash (P : Platform) (l : Listener) (x : World)
    (hs : _hasSlash P x = true) :
    (addListener P l x).self._listeners = x.self._listeners.add l ∧
      (addListener P l x).self._isListening = true ∧
      (addListener P l x).self._length = x.self._length ∧
      (addListener P l x).self._lastAction = x.self._lastAction ∧
      (addListener P l x).window.location = x.window.location ∧
      (addListener P l x).delivered = x.delivered ∧
      (addListener P l x).pending = x.pending := by
  unfold addListener
  by_cases hl : x.self._isListening = true <;> simp [hs, hl, Window.addEventListener]

theorem foldl_addListener_slash (P : Platform) (ls : List Listener) (x : World)
    (hs : _hasSlash P x = true) :
    (∀ a, a ∈ (ls.foldl (fun y l => addListener P l y) x).self._listeners.items ↔
        a ∈ x.self._listeners.items ∨ a ∈ ls) ∧
      (ls ≠ [] → (ls.foldl (fun y l => addListener P l y) x).self._isListening = true) ∧
      (ls.foldl (fun y l => addListener P l y) x).pending = x.pending := by
  induction ls generalizing x with
  | nil => simp
  | cons l ls ih =>
    have h1 := addListener_slash P l x hs
    have hs1 : _hasSlash P (addListener P l x) = true := by
      rw [hasSlash_congr P h1.2.2.2.2.1]; exact hs
    have h2 := ih (addListener P l x) hs1
    refine ⟨?_, ?_, ?_⟩
    · intro a
      rw [List.foldl_cons, h2.1 a, h1.1, ListenerSet.mem_add, List.mem_cons]
      constructor
      · rintro ((h | h) | h)
        · exact Or.inl h
        · exact Or.inr (Or.inl h)
        · exact Or.inr (Or.inr h)
      · rintro (h | h | h)
        · exact Or.inl (Or.inl h)
        · exact Or.inl (Or.inr h)
        · exact Or.inr h
    · intro _
      rw [List.foldl_cons]
      by_cases hn : ls = []
      · subst hn
        exact h1.2.1
      · exact h2.2.1 hn
    · rw [List.foldl_cons, h2.2.2, h1.2.2.2.2.2.2]

theorem runPending_noSlash (P : Platform) (x : World) (hs : _hasSlash P x = false) :
    runPending P x = x := by
  simp [runPending, hs]

theorem runPending_slash (P : Platform) (x : World) (l : Listener)
    (hs : _hasSlash P x = true) (hl : l ∈ x.pending) :
    l ∈ (runPending P x).self._listeners.items ∧
      (runPending P x).self._isListening = true ∧
      (runPending P x).pending = [] := by
  have hs0 : _hasSlash P { x with pending := [] } = true := hs
  have h := foldl_addListener_slash P x.pending { x with pending := [] } hs0
  have hne : x.pending ≠ [] := List.ne_nil_of_mem hl
  simp only [runPending, hs, if_true]
  exact ⟨(h.1 l).mpr (Or.inr hl), h.2.1 hne, h.2.2⟩

end HashLocation

/-- C12: on `HashLocation`, whenever the current fragment does not begin with
`/`, `addListener(f)` returns with the listener set, `_isListening` and the
platform subscription unchanged: `f` is not added, and the only platform call
is the `location.replace` of the self-correction, no `addEventListener`.
Whenever the fragment does begin with `/`, `addListener(f)` returns with `f`
in the listener set and `_isListening` true. -/
theorem hash_addListener_gate (P : Platform) (f : Listener) (x : HashLocation.World) :
    ((HashLocation.current P x).data.head? ≠ some '/' →
      (HashLocation.addListener P f x).self._listeners = x.self._listeners ∧
        (HashLocation.addListener P f x).self._isListening = x.self._isListening ∧
        (HashLocation.addListener P f x).window.handlers = x.window.handlers ∧
        (HashLocation.addListener P f x).window.calls =
          x.window.calls ++
            [PlatformCall.locationReplace
              (x.window.location.pathname ++ x.window.location.search ++ "#" ++
                ("/" ++ HashLocation.current P x))]) ∧
    ((HashLocation.current P x).data.head? = some '/' →
      f ∈ (HashLocation.addListener P f x).self._listeners.items ∧
        (HashLocation.addListener P f x).self._isListening = true) := by
  constructor
  · intro h
    rw [HashLocation.addListener_noSlash P f x (HashLocation.hasSlash_false_of_head P x h)]
    exact ⟨rfl, rfl, rfl, rfl⟩
  · intro h
    have h1 := HashLocation.addListener_slash P f x ((HashLocation.hasSlash_iff P x).mpr h)
    refine ⟨?_, h1.2.1⟩
    rw [h1.1]
    exact ListenerSet.mem_add_self _ f

/-- C12 at concrete inputs: `addListener(5)` on a fresh `HashLocation` in the
reference browser, at a URL without fragment and at one whose fragment is
`/path/to`. -/
theorem hash_addListener_gate_witness :
    (HashLocation.addListener Browser.browser 5
        (HashLocation.World.fresh Browser.testLocation)).self._listeners.items = [] ∧
      (HashLocation.addListener Browser.browser 5
        (HashLocation.World.fresh Browser.testLocation)).window.calls =
          [PlatformCall.locationReplace "/path/to#/"] ∧
      5 ∈ (HashLocation.addListener Browser.browser 5
        (HashLocation.World.fresh Browser.slashLocation)).self._listeners.items :=
  ⟨congrArg ListenerSet.items
     ((hash_addListener_gate Browser.browser 5
       (HashLocation.World.fresh Browser.testLocation)).1 (by decide)).1,
   ((hash_addListener_gate Browser.browser 5
       (HashLocation.World.fresh Browser.testLocation)).1 (by decide)).2.2.2,
   ((hash_addListener_gate Browser.browser 5
       (HashLocation.World.fresh Browser.slashLocation)).2 (by decide)).1⟩

theorem replace_url_assoc (a b c : String) :
    a ++ b ++ "#" ++ ("/" ++ c) = a ++ b ++ "#/" ++ c := by
  have h : ("#" : String) ++ "/" = "#/" := by decide
  rw [← String.append_assoc, String.append_assoc (a ++ b) "#" "/", h]

/-- C13: on `HashLocation`, for every fragment `c` that does not begin with
`/`, `addListener(f)` asks the browser to replace the URL with
`pathname + search + '#/' + c` and leaves `f` pending; a run of the pending
retries does nothing while the fragment does not begin with `/`; and once the
browser shows a URL whose fragment begins with `/` and the retry has run, `f`
itself is in the listener set, `_isListening` is true and nothing is pending.
For the empty fragment the URL asked for ends in `#/`, and in the reference
browser the current path is then `/` with `f` registered. -/
theorem hash_addListener_deferred (P : Platform) (f : Listener) (x : HashLocation.World)
    (h : (HashLocation.current P x).data.head? ≠ some '/') :
    (HashLocation.addListener P f x).window.calls =
        x.window.calls ++
          [PlatformCall.locationReplace
            (x.window.location.pathname ++ x.window.location.search ++ "#/" ++
              HashLocation.current P x)] ∧
      (HashLocation.addListener P f x).pending = x.pending ++ [f] ∧
      (∀ y : HashLocation.World, (HashLocation.current P y).data.head? ≠ some '/' →
        HashLocation.runPending P y = y) ∧
      (∀ loc : Location,
        (HashLocation.current P
            (HashLocation.navigate loc (HashLocation.addListener P f x))).data.head?
          = some '/' →
        f ∈ (HashLocation.runPending P
              (HashLocation.navigate loc (HashLocation.addListener P f x))).self._listeners.items ∧
          (HashLocation.runPending P
              (HashLocation.navigate loc (HashLocation.addListener P f x))).self._isListening
            = true ∧
          (HashLocation.runPending P
              (HashLocation.navigate loc (HashLocation.addListener P f x))).pending = []) ∧
      ((HashLocation.current P (HashLocation.addListener P f x)).data.head? = some '/' →
        f ∈ (HashLocation.runPending P
              (HashLocation.addListener P f x)).self._listeners.items ∧
          (HashLocation.runPending P (HashLocation.addListener P f x)).self._isListening
            = true) ∧
      (HashLocation.current P x = "" →
        (HashLocation.addListener P f x).window.calls =
          x.window.calls ++
            [PlatformCall.locationReplace
              (x.window.location.pathname ++ x.window.location.search ++ "#/")]) ∧
      (HashLocation.current Browser.browser
            (HashLocation.reach Browser.browser Browser.testLocation
              [HashLocation.Op.addListener 1, HashLocation.Op.runPending]) = "/" ∧
        (HashLocation.reach Browser.browser Browser.testLocation
              [HashLocation.Op.addListener 1, HashLocation.Op.runPending]).self._listeners.items
          = [1] ∧
        (HashLocation.reach Browser.browser Browser.testLocation
              [HashLocation.Op.addListener 1, HashLocation.Op.runPending]).self._isListening
          = true) := by
  have hs := HashLocation.hasSlash_false_of_head P x h
  have ha := HashLocation.addListener_noSlash P f x hs
  have hcalls : (HashLocation.addListener P f x).window.calls =
      x.window.calls ++
        [PlatformCall.locationReplace
          (x.window.location.pathname ++ x.window.location.search ++ "#/" ++
            HashLocation.current P x)] := by
    rw [ha, ← replace_url_assoc]
    rfl
  have hpend : (HashLocation.addListener P f x).pending = x.pending ++ [f] := by
    rw [ha]
    rfl
  have hmem : f ∈ (HashLocation.addListener P f x).pending := by
    rw [hpend]
    simp
  refine ⟨hcalls, hpend, ?_, ?_, ?_, ?_, ?_⟩
  · intro y hy
    exact HashLocation.runPending_noSlash P y (HashLocation.hasSlash_false_of_head P y hy)
  · intro loc hl
    exact HashLocation.runPending_slash P _ f ((HashLocation.hasSlash_iff P _).mpr hl) hmem
  · intro hl
    have := HashLocation.runPending_slash P _ f ((HashLocation.hasSlash_iff P _).mpr hl) hmem
    exact ⟨this.1, this.2.1⟩
  · intro he
    rw [hcalls, he, String.append_empty]
  · decide

/-- C13 at a concrete input: `addListener(1)` on a fresh `HashLocation` at
`http://example.com/path/to` in the reference browser, the browser then
showing `http://example.com/path/to#/path/to`. -/
theorem hash_addListener_deferred_witness :
    (HashLocation.addListener Browser.browser 1
        (HashLocation.World.fresh Browser.testLocation)).window.calls =
        [PlatformCall.locationReplace "/path/to#/"] ∧
      1 ∈ (HashLocation.runPending Browser.browser
            (HashLocation.navigate Browser.slashLocation
              (HashLocation.addListener Browser.browser 1
                (HashLocation.World.fresh Browser.testLocation)))).self._listeners.items :=
  ⟨(hash_addListener_deferred Browser.browser 1
      (HashLocation.World.fresh Browser.testLocation) (by decide)).1,
   ((hash_addListener_deferred Browser.browser 1
      (HashLocation.World.fresh Browser.testLocation) (by decide)).2.2.2.1
      Browser.slashLocation (by decide)).1⟩

/-! ## C14: what the getter `current` of `HashLocation` reads -/

theorem splitChars_head (c : Char) (l : List Char) :
    (splitChars c l).head? = some (l.takeWhile (fun a => a != c)) := by
  induction l with
  | nil => rfl
  | cons a l ih =>
    by_cases ha : a = c
    · simp [splitChars, ha]
    · cases hsp : splitChars c l with
      | nil => rw [hsp] at ih; simp at ih
      | cons s ss =>
        rw [hsp] at ih
        simp only [List.head?_cons, Option.some.injEq] at ih
        simp [splitChars, ha, hsp, ih]

theorem splitChars_second (c : Char) (l : List Char) :
    (splitChars c l)[1]? =
      match l.dropWhile (fun a => a != c) with
      | [] => none
      | _ :: r => some (r.takeWhile (fun a => a != c)) := by
  induction l with
  | nil => rfl
  | cons a l ih =>
    by_cases ha : a = c
    · have hh := splitChars_head c l
      cases hsp : splitChars c l with
      | nil => rw [hsp] at hh; simp at hh
      | cons s ss =>
        rw [hsp] at hh
        simp only [List.head?_cons, Option.some.injEq] at hh
        simp [splitChars, ha, hsp, hh]
    · cases hsp : splitChars c l with
      | nil =>
        have hh := splitChars_head c l
        rw [hsp] at hh
        simp at hh
      | cons s ss =>
        rw [hsp] at ih
        simp only [splitChars, ha, if_false, hsp]
        simpa [ha] using ih

namespace HashLocation

/-- The getter `current` decodes the text between the first and the second
`#` of the URL: the fragment of the specification cut at its first `#`. -/
theorem current_eq (P : Platform) (x : World) :
    current P x =
      P.decodeURI
        (String.mk ((specFragment x.window.location.href).data.takeWhile
          (fun a => a != '#'))) := by
  unfold current jsSplit specFragment
  congr 1
  rw [List.getElem?_map, splitChars_second]
  cases hd : x.window.location.href.data.dropWhile (fun a => a != '#') with
  | nil => simp [jsOr]
  | cons a r =>
    simp only [Option.map_some', List.drop_succ_cons, List.drop_zero]
    exact jsOr_some_empty _

/-- On a URL whose fragment has no further `#` the getter `current` is the
percent-decoding of the fragment of the specification. -/
theorem current_eq_specFragment (P : Platform) (x : World)
    (h : '#' ∉ (specFragment x.window.location.href).data) :
    current P x = P.decodeURI (specFragment x.window.location.href) := by
  rw [current_eq]
  congr 1
  have : (specFragment x.window.location.href).data.takeWhile (fun a => a != '#') =
      (specFragment x.window.location.href).data := by
    rw [List.takeWhile_eq_self_iff]
    intro a ha
    have : a ≠ '#' := fun e => h (e ▸ ha)
    simpa using this
  rw [this]

end HashLocation

/-- C14 at its failing input: at the URL `http://example.com/path/to#/a#b`
(what `push('/a#b')` leaves in the reference browser) the getter `current`
of `HashLocation` is `/a`, while the percent-decoding of the substring after
the first `#` is `/a#b`. -/
theorem hash_current_stops_at_second_hash :
    (HashLocation.push Browser.browser "/a#b"
        (HashLocation.World.fresh Browser.testLocation)).window.location =
      Browser.twoHashLocation ∧
    HashLocation.current Browser.browser
        (HashLocation.World.fresh Browser.twoHashLocation) = "/a" ∧
    Browser.browser.decodeURI (specFragment Browser.twoHashLocation.href) = "/a#b" ∧
    HashLocation.current Browser.browser
        (HashLocation.World.fresh Browser.twoHashLocation) ≠
      Browser.browser.decodeURI (specFragment Browser.twoHashLocation.href) := by
  decide

/-! ## C15: `addListener` is idempotent per listener -/

namespace ListenerSet

theorem count_of_mem (s : ListenerSet) (l : Listener) (h : l ∈ s.items) :
    s.items.count l = 1 :=
  List.count_eq_one_of_mem s.nodup h

theorem has_of_mem (s : ListenerSet) (l : Listener) (h : l ∈ s.items) : s.has l = true := by
  simp [has, h]

end ListenerSet

namespace HashLocation

theorem addListener_twice (P : Platform) (f : Listener) (x : World)
    (hs : _hasSlash P x = true) :
    addListener P f (addListener P f x) = addListener P f x := by
  have h1 := addListener_slash P f x hs
  have hs1 : _hasSlash P (addListener P f x) = true := by
    rw [hasSlash_congr P h1.2.2.2.2.1]; exact hs
  have hmem : f ∈ (addListener P f x).self._listeners.items := by
    rw [h1.1]; exact ListenerSet.mem_add_self _ f
  have hl := h1.2.1
  generalize addListener P f x = y at hs1 hmem hl
  have hy : ({ y with self := { y.self with _isListening := true } } : World) = y := by
    rw [← hl]
  simpa [addListener, hs1, hl, ListenerSet.add_of_mem _ _ hmem] using hy

end HashLocation

namespace HistoryLocation

theorem addListener_effect (f : Listener) (x : World) :
    (addListener f x).self._listeners = x.self._listeners.add f ∧
      (addListener f x).self._isListening = true ∧
      (addListener f x).self._length = x.self._length ∧
      (addListener f x).window.location = x.window.location ∧
      (addListener f x).delivered = x.delivered := by
  unfold addListener
  by_cases hl : x.self._isListening = true <;> simp [hl, Window.addEventListener]

theorem addListener_twice_history (f : Listener) (x : World) :
    addListener f (addListener f x) = addListener f x := by
  have h1 := addListener_effect f x
  have hmem : f ∈ (addListener f x).self._listeners.items := by
    rw [h1.1]; exact ListenerSet.mem_add_self _ f
  have hl := h1.2.1
  generalize addListener f x = y at hmem hl
  have hy : ({ y with self := { y.self with _isListening := true } } : World) = y := by
    rw [← hl]
  simpa [addListener, hl, ListenerSet.add_of_mem _ _ hmem] using hy

end HistoryLocation

/-- C15: on both adapters (the fragment beginning with `/` for
`HashLocation`), registering the same callback twice leaves the adapter in
exactly the state reached by registering it once; the listener set then holds
it once, and a later `emit` invokes it exactly once. Registering two distinct
callbacks on a fresh adapter gives a listener set of size 2. -/
theorem addListener_idempotent (P : Platform) (f g : Listener) (type : String) :
    (∀ x : HashLocation.World, (HashLocation.current P x).data.head? = some '/' →
      HashLocation.addListener P f (HashLocation.addListener P f x) =
          HashLocation.addListener P f x ∧
        (HashLocation.addListener P f
            (HashLocation.addListener P f x)).self._listeners.items.count f = 1 ∧
        invocations
            (HashLocation.emit P type
              (HashLocation.addListener P f (HashLocation.addListener P f x))).delivered f =
          invocations x.delivered f ++
            [{ path := HashLocation.current P x, type := type }]) ∧
    (∀ loc : Location,
      (HashLocation.current P (HashLocation.World.fresh loc)).data.head? = some '/' →
      f ≠ g →
      (HashLocation.reach P loc
        [HashLocation.Op.addListener f, HashLocation.Op.addListener g]).self._listeners.size
          = 2) ∧
    (∀ x : HistoryLocation.World,
      HistoryLocation.addListener f (HistoryLocation.addListener f x) =
          HistoryLocation.addListener f x ∧
        (HistoryLocation.addListener f
            (HistoryLocation.addListener f x)).self._listeners.items.count f = 1 ∧
        invocations
            (HistoryLocation.emit P type
              (HistoryLocation.addListener f (HistoryLocation.addListener f x))).delivered f =
          invocations x.delivered f ++
            [{ path := HistoryLocation.current P x, type := type }]) ∧
    (∀ loc : Location, f ≠ g →
      (HistoryLocation.reach P loc
        [HistoryLocation.Op.addListener f,
          HistoryLocation.Op.addListener g]).self._listeners.size = 2) := by
  refine ⟨?_, ?_, ?_, ?_⟩
  · intro x h
    have hs := (HashLocation.hasSlash_iff P x).mpr h
    have h1 := HashLocation.addListener_slash P f x hs
    have h2 := HashLocation.addListener_twice P f x hs
    have hmem : f ∈ (HashLocation.addListener P f x).self._listeners.items := by
      rw [h1.1]; exact ListenerSet.mem_add_self _ f
    refine ⟨h2, ?_, ?_⟩
    · rw [h2]
      exact ListenerSet.count_of_mem _ f hmem
    · rw [h2, HashLocation.emit_invocations, ListenerSet.has_of_mem _ f hmem, h1.2.2.2.2.2.1]
      have hc : HashLocation.current P (HashLocation.addListener P f x) =
          HashLocation.current P x := by
        simp [HashLocation.current, h1.2.2.2.2.1]
      simp [hc]
  · intro loc h hfg
    have hs := (HashLocation.hasSlash_iff P _).mpr h
    have h1 := HashLocation.addListener_slash P f (HashLocation.World.fresh loc) hs
    have hs1 : HashLocation._hasSlash P
        (HashLocation.addListener P f (HashLocation.World.fresh loc)) = true := by
      rw [HashLocation.hasSlash_congr P h1.2.2.2.2.1]; exact hs
    have h2 := HashLocation.addListener_slash P g _ hs1
    have hr : HashLocation.reach P loc
        [HashLocation.Op.addListener f, HashLocation.Op.addListener g] =
        HashLocation.addListener P g
          (HashLocation.addListener P f (HashLocation.World.fresh loc)) := rfl
    have hgf : ¬ g = f := fun e => hfg e.symm
    rw [hr, h2.1, h1.1]
    simp [ListenerSet.size, ListenerSet.add, HashLocation.World.fresh, HashLocation.State.new,
      ListenerSet.empty, hgf]
  · intro x
    have h1 := HistoryLocation.addListener_effect f x
    have h2 := HistoryLocation.addListener_twice_history f x
    have hmem : f ∈ (HistoryLocation.addListener f x).self._listeners.items := by
      rw [h1.1]; exact ListenerSet.mem_add_self _ f
    refine ⟨h2, ?_, ?_⟩
    · rw [h2]
      exact ListenerSet.count_of_mem _ f hmem
    · rw [h2, HistoryLocation.emit_invocations_history, ListenerSet.has_of_mem _ f hmem,
        h1.2.2.2.2]
      have hc : HistoryLocation.current P (HistoryLocation.addListener f x) =
          HistoryLocation.current P x := by
        simp [HistoryLocation.current, h1.2.2.2.1]
      simp [hc]
  · intro loc hfg
    have h1 := HistoryLocation.addListener_effect f (HistoryLocation.World.fresh loc)
    have h2 := HistoryLocation.addListener_effect g
      (HistoryLocation.addListener f (HistoryLocation.World.fresh loc))
    have hr : HistoryLocation.reach P loc
        [HistoryLocation.Op.addListener f, HistoryLocation.Op.addListener g] =
        HistoryLocation.addListener g
          (HistoryLocation.addListener f (HistoryLocation.World.fresh loc)) := rfl
    have hgf : ¬ g = f := fun e => hfg e.symm
    rw [hr, h2.1, h1.1]
    simp [ListenerSet.size, ListenerSet.add, HistoryLocation.World.fresh,
      HistoryLocation.State.new, ListenerSet.empty, hgf]

/-- C15 at concrete inputs: in the reference browser, listener 3 registered
twice on a `HashLocation` at `http://example.com/path/to#/path/to` is counted
once, and listeners 3 and 4 give a set of size 2 on either adapter. -/
theorem addListener_idempotent_witness :
    (HashLocation.addListener Browser.browser 3
        (HashLocation.addListener Browser.browser 3
          (HashLocation.World.fresh Browser.slashLocation))).self._listeners.items.count 3
      = 1 ∧
    (HashLocation.reach Browser.browser Browser.slashLocation
      [HashLocation.Op.addListener 3, HashLocation.Op.addListener 4]).self._listeners.size
      = 2 ∧
    (HistoryLocation.reach Browser.browser Browser.testLocation
      [HistoryLocation.Op.addListener 3, HistoryLocation.Op.addListener 4]).self._listeners.size
      = 2 :=
  ⟨((addListener_idempotent Browser.browser 3 4 "POP").1
      (HashLocation.World.fresh Browser.slashLocation) (by decide)).2.1,
   (addListener_idempotent Browser.browser 3 4 "POP").2.1 Browser.slashLocation
      (by decide) (by decide),
   (addListener_idempotent Browser.browser 3 4 "POP").2.2.2 Browser.testLocation
      (by decide)⟩

/-! ## C16: `dispose` -/

/-- C16: on both adapters, `dispose()` from every state leaves the fields of a
freshly constructed adapter (`_length` 1, `_lastAction` `null` on
`HashLocation`, empty listener set, `_isListening` false) and calls
`removeEventListener`; in every reachable state the platform subscription is
gone afterwards, and a second `dispose()` changes neither the fields, nor the
subscription, nor the URL, nor what has been delivered. -/
theorem dispose_resets (P : Platform) (loc : Location) :
    (∀ x : HashLocation.World,
      (HashLocation.dispose x).self = (HashLocation.World.fresh loc).self ∧
        (HashLocation.dispose x).self._length = 1 ∧
        (HashLocation.dispose x).self._lastAction = none ∧
        (HashLocation.dispose x).self._listeners.size = 0 ∧
        (HashLocation.dispose x).self._isListening = false ∧
        (HashLocation.dispose x).window.calls =
          x.window.calls ++ [PlatformCall.removeEventListener "hashchange" Handler.this false] ∧
        (HashLocation.dispose (HashLocation.dispose x)).self = (HashLocation.dispose x).self ∧
        (HashLocation.dispose (HashLocation.dispose x)).window.location =
          (HashLocation.dispose x).window.location ∧
        (HashLocation.dispose (HashLocation.dispose x)).delivered =
          (HashLocation.dispose x).delivered) ∧
    (∀ ops : List HashLocation.Op,
      (HashLocation.dispose (HashLocation.reach P loc ops)).window.handlers = [] ∧
        (HashLocation.dispose (HashLocation.dispose (HashLocation.reach P loc ops))).window.handlers
          = (HashLocation.dispose (HashLocation.reach P loc ops)).window.handlers) ∧
    (∀ x : HistoryLocation.World,
      (HistoryLocation.dispose x).self = (HistoryLocation.World.fresh loc).self ∧
        (HistoryLocation.dispose x).self._length = 1 ∧
        (HistoryLocation.dispose x).self._listeners.size = 0 ∧
        (HistoryLocation.dispose x).self._isListening = false ∧
        (HistoryLocation.dispose x).window.calls =
          x.window.calls ++ [PlatformCall.removeEventListener "popstate" Handler.this false] ∧
        (HistoryLocation.dispose (HistoryLocation.dispose x)).self =
          (HistoryLocation.dispose x).self ∧
        (HistoryLocation.dispose (HistoryLocation.dispose x)).window.location =
          (HistoryLocation.dispose x).window.location ∧
        (HistoryLocation.dispose (HistoryLocation.dispose x)).delivered =
          (HistoryLocation.dispose x).delivered) ∧
    (∀ ops : List HistoryLocation.Op,
      (HistoryLocation.dispose (HistoryLocation.reach P loc ops)).window.handlers = [] ∧
        (HistoryLocation.dispose
            (HistoryLocation.dispose (HistoryLocation.reach P loc ops))).window.handlers
          = (HistoryLocation.dispose (HistoryLocation.reach P loc ops)).window.handlers) := by
  refine ⟨fun x => ⟨rfl, rfl, rfl, rfl, rfl, rfl, rfl, rfl, rfl⟩, ?_,
    fun x => ⟨rfl, rfl, rfl, rfl, rfl, rfl, rfl, rfl⟩, ?_⟩
  · intro ops
    have hsub : HashLocation.Subscribed (HashLocation.reach P loc ops) :=
      HashLocation.subscribed_run P ops _ (HashLocation.subscribed_fresh loc)
    unfold HashLocation.Subscribed at hsub
    have h1 : (HashLocation.dispose (HashLocation.reach P loc ops)).window.handlers = [] := by
      by_cases hb : (HashLocation.reach P loc ops).self._isListening = true
      · simp only [hb, if_true] at hsub
        simp [HashLocation.dispose, Window.removeEventListener, hsub]
      · simp only [hb] at hsub
        simp [HashLocation.dispose, Window.removeEventListener, hsub]
    refine ⟨h1, ?_⟩
    rw [h1]
    have : (HashLocation.dispose
        (HashLocation.dispose (HashLocation.reach P loc ops))).window.handlers =
        (HashLocation.dispose (HashLocation.reach P loc ops)).window.handlers.erase
          ("hashchange", false) := rfl
    rw [this, h1]
    rfl
  · intro ops
    have hsub : HistoryLocation.Subscribed (HistoryLocation.reach P loc ops) :=
      HistoryLocation.subscribed_run_history P ops _ (HistoryLocation.subscribed_fresh_history loc)
    unfold HistoryLocation.Subscribed at hsub
    have h1 : (HistoryLocation.dispose (HistoryLocation.reach P loc ops)).window.handlers
        = [] := by
      by_cases hb : (HistoryLocation.reach P loc ops).self._isListening = true
      · simp only [hb, if_true] at hsub
        simp [HistoryLocation.dispose, Window.removeEventListener, hsub]
      · simp only [hb] at hsub
        simp [HistoryLocation.dispose, Window.removeEventListener, hsub]
    refine ⟨h1, ?_⟩
    rw [h1]
    have : (HistoryLocation.dispose
        (HistoryLocation.dispose (HistoryLocation.reach P loc ops))).window.handlers =
        (HistoryLocation.dispose (HistoryLocation.reach P loc ops)).window.handlers.erase
          ("popstate", false) := rfl
    rw [this, h1]
    rfl

/-! ## C17 and C18: `_length` on `HashLocation` and `emit` -/

namespace HashLocation

theorem length_handleEvent (P : Platform) (x : World) :
    (handleEvent P x).self._length =
      x.self._length +
        if _hasSlash P x = true ∧ x.self._lastAction = some Action.PUSH then 1 else 0 := by
  by_cases hs : _hasSlash P x = true
  · rw [handleEvent_slash P x hs]
    show (emit P ((x.self._lastAction.map Action.toString).getD "POP") x).self._length = _
    rw [length_emit]
    cases hla : x.self._lastAction with
    | none => simp [hs]
    | some a => cases a <;> simp [hs, Action.toString]
  · have hf : _hasSlash P x = false := by simpa using hs
    rw [handleEvent_noSlash P x hf]
    simp [hs, _ensureSlash, replace]

end HashLocation

/-- C17: on `HashLocation`, `_length` is 1 after construction; `push(p)`
followed by the handling of its event while the fragment begins with `/`
increases `_length` by exactly 1 (the `push(p)` call alone leaves it as it
is); `pop()` decreases `_length` by exactly 1 and the handling of its event
does not change it further; `replace(p)` and the handling of its event leave
`_length` unchanged. -/
theorem hash_length_counts (P : Platform) (loc : Location) :
    (HashLocation.World.fresh loc).self._length = 1 ∧
    (∀ (x : HashLocation.World) (p : String),
      (HashLocation.push P p x).self._length = x.self._length ∧
      ((HashLocation.current P (HashLocation.push P p x)).data.head? = some '/' →
        (HashLocation.handleEvent P (HashLocation.push P p x)).self._length =
          x.self._length + 1)) ∧
    (∀ x : HashLocation.World,
      (HashLocation.pop x).self._length = x.self._length - 1 ∧
      (HashLocation.handleEvent P (HashLocation.pop x)).self._length = x.self._length - 1) ∧
    (∀ (x : HashLocation.World) (p : String),
      (HashLocation.replace P p x).self._length = x.self._length ∧
      (HashLocation.handleEvent P (HashLocation.replace P p x)).self._length =
        x.self._length) := by
  refine ⟨rfl, ?_, ?_, ?_⟩
  · intro x p
    refine ⟨rfl, ?_⟩
    intro h
    have hs := (HashLocation.hasSlash_iff P _).mpr h
    rw [HashLocation.length_handleEvent, if_pos ⟨hs, rfl⟩]
    rfl
  · intro x
    refine ⟨rfl, ?_⟩
    rw [HashLocation.length_handleEvent]
    simp [HashLocation.pop]
  · intro x p
    refine ⟨rfl, ?_⟩
    rw [HashLocation.length_handleEvent]
    simp [HashLocation.replace]

/-- C17 at a concrete input: `push('/a')` and its event on a fresh
`HashLocation` in the reference browser bring `_length` from 1 to 2. -/
theorem hash_length_counts_witness :
    (HashLocation.handleEvent Browser.browser
        (HashLocation.push Browser.browser "/a"
          (HashLocation.World.fresh Browser.testLocation))).self._length = 1 + 1 :=
  ((hash_length_counts Browser.browser Browser.testLocation).2.1
    (HashLocation.World.fresh Browser.testLocation) "/a").2 (by decide)

/-- C18: `emit(type)` of `HashLocation` increases `_length` by exactly 1 when
`type` is `PUSH` and leaves it unchanged for every other type; `emit(type)` of
`HistoryLocation` never changes `_length`; neither changes the listener set,
`_isListening` or `_lastAction`. -/
theorem emit_length_effect (P : Platform) (type : String) :
    (∀ x : HashLocation.World,
      (HashLocation.emit P type x).self._length =
          x.self._length + (if type = "PUSH" then 1 else 0) ∧
        (HashLocation.emit P "PUSH" x).self._length = x.self._length + 1 ∧
        (type ≠ "PUSH" → (HashLocation.emit P type x).self._length = x.self._length) ∧
        (HashLocation.emit P type x).self._listeners = x.self._listeners ∧
        (HashLocation.emit P type x).self._isListening = x.self._isListening ∧
        (HashLocation.emit P type x).self._lastAction = x.self._lastAction) ∧
    (∀ x : HistoryLocation.World,
      (HistoryLocation.emit P type x).self._length = x.self._length ∧
        (HistoryLocation.emit P "PUSH" x).self._length = x.self._length ∧
        (HistoryLocation.emit P type x).self._listeners = x.self._listeners ∧
        (HistoryLocation.emit P type x).self._isListening = x.self._isListening) := by
  constructor
  · intro x
    refine ⟨HashLocation.length_emit P type x, ?_, ?_, HashLocation.emit_listeners P type x,
      ?_, ?_⟩
    · simp [HashLocation.length_emit]
    · intro h
      simp [HashLocation.length_emit, h]
    · unfold HashLocation.emit
      by_cases ht : type = "PUSH" <;> simp [ht]
    · unfold HashLocation.emit
      by_cases ht : type = "PUSH" <;> simp [ht]
  · intro x
    exact ⟨rfl, rfl, rfl, rfl⟩

/-- C18 at concrete inputs: `emit('PUSH')` twice on a fresh `HashLocation`
gives `_length` 3, `emit('POP')` leaves it at 1. -/
theorem emit_length_effect_witness :
    (HashLocation.emit Browser.browser "PUSH"
        (HashLocation.emit Browser.browser "PUSH"
          (HashLocation.World.fresh Browser.testLocation))).self._length = 3 ∧
      (HashLocation.emit Browser.browser "POP"
        (HashLocation.World.fresh Browser.testLocation)).self._length = 1 :=
  ⟨by
     rw [((emit_length_effect Browser.browser "PUSH").1 _).2.1,
       ((emit_length_effect Browser.browser "PUSH").1 _).2.1]
     rfl,
   ((emit_length_effect Browser.browser "POP").1
     (HashLocation.World.fresh Browser.testLocation)).2.2.1 (by decide)⟩

/-! ## C19: `pop` of `HistoryLocation` does not emit -/

/-- C19: `pop()` of `HistoryLocation` invokes no listener in any state; all it
does is decrement `_length` by 1 and make one `history.back()` call. The `POP`
change reaches the listeners only through a later `handleEvent` whose event
carries a state payload; one without payload delivers nothing. -/
theorem history_pop_does_not_emit (P : Platform) (x : HistoryLocation.World) (l : Listener) :
    (HistoryLocation.pop x).delivered = x.delivered ∧
      (HistoryLocation.pop x).self._length = x.self._length - 1 ∧
      (HistoryLocation.pop x).self._listeners = x.self._listeners ∧
      (HistoryLocation.pop x).self._isListening = x.self._isListening ∧
      (HistoryLocation.pop x).window.calls = x.window.calls ++ [PlatformCall.historyBack] ∧
      (HistoryLocation.pop x).window.location = x.window.location ∧
      (HistoryLocation.pop x).window.handlers = x.window.handlers ∧
      (∀ event : HistoryLocation.PopStateEvent,
        event.state ≠ HistoryLocation.EventState.undefined →
        invocations (HistoryLocation.handleEvent P event (HistoryLocation.pop x)).delivered l =
          invocations x.delivered l ++
            if x.self._listeners.has l = true then
              [{ path := HistoryLocation.current P x, type := "POP" }]
            else []) ∧
      (∀ event : HistoryLocation.PopStateEvent,
        event.state = HistoryLocation.EventState.undefined →
        (HistoryLocation.handleEvent P event (HistoryLocation.pop x)).delivered =
          x.delivered) := by
  refine ⟨rfl, rfl, rfl, rfl, rfl, rfl, rfl, ?_, ?_⟩
  · intro event h
    have he : HistoryLocation.handleEvent P event (HistoryLocation.pop x) =
        HistoryLocation.emit P "POP" (HistoryLocation.pop x) := by
      simp [HistoryLocation.handleEvent, h]
    rw [he, HistoryLocation.emit_invocations_history]
    rfl
  · intro event h
    simp [HistoryLocation.handleEvent, h, HistoryLocation.pop]

/-- C19 at a concrete input: in the reference browser, after `push('/a')` with
listener 1 registered, `pop()` adds no invocation, and the event that follows
with a state payload adds the `POP` change. -/
theorem history_pop_does_not_emit_witness :
    invocations
        (HistoryLocation.handleEvent Browser.browser
          { state := HistoryLocation.EventState.object "/path/to" }
          (HistoryLocation.pop
            (HistoryLocation.reach Browser.browser Browser.testLocation
              [HistoryLocation.Op.addListener 1, HistoryLocation.Op.push "/a"]))).delivered 1 =
      [{ path := "/a", type := "PUSH" }, { path := "/a", type := "POP" }] :=
  ((history_pop_does_not_emit Browser.browser
    (HistoryLocation.reach Browser.browser Browser.testLocation
      [HistoryLocation.Op.addListener 1, HistoryLocation.Op.push "/a"]) 1).2.2.2.2.2.2.2.1
    { state := HistoryLocation.EventState.object "/path/to" } (by decide)).trans (by decide)

/-! ## C20: `addListener` then `removeListener` -/

namespace ListenerSet

theorem delete_add (s : ListenerSet) (f : Listener) (h : f ∉ s.items) :
    (s.add f).delete f = s := by
  apply ext_items
  show (s.add f).items.erase f = s.items
  rw [items_add_of_not_mem s f h, List.erase_append_right _ h]
  simp

end ListenerSet

namespace HashLocation

theorem removeListener_effect (l : Listener) (x : World) :
    (removeListener l x).self._listeners = x.self._listeners.delete l ∧
      (removeListener l x).self._length = x.self._length ∧
      (removeListener l x).self._isListening =
        (if (x.self._listeners.delete l).size = 0 then false else x.self._isListening) := by
  unfold removeListener
  by_cases hz : (x.self._listeners.delete l).size = 0 <;> simp [hz]

end HashLocation

namespace HistoryLocation

theorem removeListener_effect_history (l : Listener) (x : World) :
    (removeListener l x).self._listeners = x.self._listeners.delete l ∧
      (removeListener l x).self._length = x.self._length ∧
      (removeListener l x).self._isListening =
        (if (x.self._listeners.delete l).size = 0 then false else x.self._isListening) := by
  unfold removeListener
  by_cases hz : (x.self._listeners.delete l).size = 0 <;> simp [hz]

end HistoryLocation

/-- C20: on both adapters, in any state where `_isListening` is true exactly
when the listener set is non-empty (and the fragment begins with `/` on
`HashLocation`), `addListener(f)` followed by `removeListener(f)` for a
listener `f` that was not registered restores the listener set,
`_isListening` and `_length` to their values before the two calls. -/
theorem add_then_remove_restores (P : Platform) (f : Listener) :
    (∀ x : HashLocation.World,
      (x.self._isListening = true ↔ 0 < x.self._listeners.size) →
      (HashLocation.current P x).data.head? = some '/' →
      f ∉ x.self._listeners.items →
      (HashLocation.removeListener f (HashLocation.addListener P f x)).self._listeners =
          x.self._listeners ∧
        (HashLocation.removeListener f (HashLocation.addListener P f x)).self._isListening =
          x.self._isListening ∧
        (HashLocation.removeListener f (HashLocation.addListener P f x)).self._length =
          x.self._length) ∧
    (∀ x : HistoryLocation.World,
      (x.self._isListening = true ↔ 0 < x.self._listeners.size) →
      f ∉ x.self._listeners.items →
      (HistoryLocation.removeListener f (HistoryLocation.addListener f x)).self._listeners =
          x.self._listeners ∧
        (HistoryLocation.removeListener f (HistoryLocation.addListener f x)).self._isListening =
          x.self._isListening ∧
        (HistoryLocation.removeListener f (HistoryLocation.addListener f x)).self._length =
          x.self._length) := by
  constructor
  · intro x hinv h hf
    have hs := (HashLocation.hasSlash_iff P x).mpr h
    have h1 := HashLocation.addListener_slash P f x hs
    have h2 := HashLocation.removeListener_effect f (HashLocation.addListener P f x)
    have hd : (HashLocation.addListener P f x).self._listeners.delete f = x.self._listeners := by
      rw [h1.1]; exact ListenerSet.delete_add _ f hf
    rw [hd] at h2
    refine ⟨h2.1, ?_, h2.2.1.trans h1.2.2.1⟩
    rw [h2.2.2, h1.2.1]
    by_cases hz : x.self._listeners.size = 0
    · have : ¬ x.self._isListening = true := fun e => by
        have := hinv.mp e
        omega
      simp [hz, this]
    · have : x.self._isListening = true := hinv.mpr (Nat.pos_of_ne_zero hz)
      simp [hz, this]
  · intro x hinv hf
    have h1 := HistoryLocation.addListener_effect f x
    have h2 := HistoryLocation.removeListener_effect_history f (HistoryLocation.addListener f x)
    have hd : (HistoryLocation.addListener f x).self._listeners.delete f = x.self._listeners := by
      rw [h1.1]; exact ListenerSet.delete_add _ f hf
    rw [hd] at h2
    refine ⟨h2.1, ?_, h2.2.1.trans h1.2.2.1⟩
    rw [h2.2.2, h1.2.1]
    by_cases hz : x.self._listeners.size = 0
    · have : ¬ x.self._isListening = true := fun e => by
        have := hinv.mp e
        omega
      simp [hz, this]
    · have : x.self._isListening = true := hinv.mpr (Nat.pos_of_ne_zero hz)
      simp [hz, this]

/-- C20 at concrete inputs: in the reference browser, adding and removing
listener 9 on a `HashLocation` that holds listener 1, and on a fresh
`HistoryLocation`. -/
theorem add_then_remove_restores_witness :
    (HashLocation.removeListener 9
        (HashLocation.addListener Browser.browser 9
          (HashLocation.reach Browser.browser Browser.slashLocation
            [HashLocation.Op.addListener 1]))).self._listeners =
      (HashLocation.reach Browser.browser Browser.slashLocation
        [HashLocation.Op.addListener 1]).self._listeners ∧
    (HistoryLocation.removeListener 9
        (HistoryLocation.addListener 9
          (HistoryLocation.World.fresh Browser.testLocation))).self._isListening =
      (HistoryLocation.World.fresh Browser.testLocation).self._isListening :=
  ⟨((add_then_remove_restores Browser.browser 9).1
      (HashLocation.reach Browser.browser Browser.slashLocation
        [HashLocation.Op.addListener 1]) (by decide) (by decide) (by decide)).1,
   ((add_then_remove_restores Browser.browser 9).2
      (HistoryLocation.World.fresh Browser.testLocation) (by decide) (by decide)).2.1⟩

/-! ## C21: `removeListener` of a callback that is not registered -/

namespace ListenerSet

theorem delete_of_not_mem (s : ListenerSet) (g : Listener) (h : g ∉ s.items) :
    s.delete g = s := by
  apply ext_items
  show s.items.erase g = s.items
  exact List.erase_of_not_mem h

end ListenerSet

namespace HashLocation

theorem removeListener_nonempty (g : Listener) (x : World) (hg : g ∉ x.self._listeners.items)
    (hpos : 0 < x.self._listeners.size) : removeListener g x = x := by
  have hz : ¬ x.self._listeners.size = 0 := by omega
  simp [removeListener, ListenerSet.delete_of_not_mem _ g hg, hz]

end HashLocation

namespace HistoryLocation

theorem removeListener_nonempty_history (g : Listener) (x : World)
    (hg : g ∉ x.self._listeners.items) (hpos : 0 < x.self._listeners.size) :
    removeListener g x = x := by
  have hz : ¬ x.self._listeners.size = 0 := by omega
  simp [removeListener, ListenerSet.delete_of_not_mem _ g hg, hz]

end HistoryLocation

/-- C21: on both adapters, in any state where `_isListening` is true exactly
when the listener set is non-empty, `removeListener(g)` for a callback `g`
that is not registered leaves the listener set, `_isListening` and `_length`
unchanged; when other listeners are registered it leaves the whole window as
it is: no `removeEventListener` call, the platform subscription stays. -/
theorem removeListener_unregistered (g : Listener) :
    (∀ x : HashLocation.World,
      (x.self._isListening = true ↔ 0 < x.self._listeners.size) →
      g ∉ x.self._listeners.items →
      (HashLocation.removeListener g x).self._listeners = x.self._listeners ∧
        (HashLocation.removeListener g x).self._isListening = x.self._isListening ∧
        (HashLocation.removeListener g x).self._length = x.self._length ∧
        (0 < x.self._listeners.size →
          (HashLocation.removeListener g x).window = x.window)) ∧
    (∀ x : HistoryLocation.World,
      (x.self._isListening = true ↔ 0 < x.self._listeners.size) →
      g ∉ x.self._listeners.items →
      (HistoryLocation.removeListener g x).self._listeners = x.self._listeners ∧
        (HistoryLocation.removeListener g x).self._isListening = x.self._isListening ∧
        (HistoryLocation.removeListener g x).self._length = x.self._length ∧
        (0 < x.self._listeners.size →
          (HistoryLocation.removeListener g x).window = x.window)) := by
  constructor
  · intro x hinv hg
    have h1 := HashLocation.removeListener_effect g x
    rw [ListenerSet.delete_of_not_mem _ g hg] at h1
    refine ⟨h1.1, ?_, h1.2.1, ?_⟩
    · rw [h1.2.2]
      by_cases hz : x.self._listeners.size = 0
      · have : ¬ x.self._isListening = true := fun e => by
          have := hinv.mp e
          omega
        simp [hz, this]
      · simp [hz]
    · intro hpos
      rw [HashLocation.removeListener_nonempty g x hg hpos]
  · intro x hinv hg
    have h1 := HistoryLocation.removeListener_effect_history g x
    rw [ListenerSet.delete_of_not_mem _ g hg] at h1
    refine ⟨h1.1, ?_, h1.2.1, ?_⟩
    · rw [h1.2.2]
      by_cases hz : x.self._listeners.size = 0
      · have : ¬ x.self._isListening = true := fun e => by
          have := hinv.mp e
          omega
        simp [hz, this]
      · simp [hz]
    · intro hpos
      rw [HistoryLocation.removeListener_nonempty_history g x hg hpos]

/-- C21 at concrete inputs: in the reference browser, `removeListener(2)` on a
`HashLocation` and on a `HistoryLocation` that hold only listener 1 leaves
the window, with its subscription, as it is. -/
theorem removeListener_unregistered_witness :
    (HashLocation.removeListener 2
        (HashLocation.reach Browser.browser Browser.slashLocation
          [HashLocation.Op.addListener 1])).window =
      (HashLocation.reach Browser.browser Browser.slashLocation
        [HashLocation.Op.addListener 1]).window ∧
    (HashLocation.reach Browser.browser Browser.slashLocation
        [HashLocation.Op.addListener 1]).window.handlers = [("hashchange", false)] ∧
    (HistoryLocation.removeListener 2
        (HistoryLocation.reach Browser.browser Browser.testLocation
          [HistoryLocation.Op.addListener 1])).self._isListening = true :=
  ⟨((removeListener_unregistered 2).1
      (HashLocation.reach Browser.browser Browser.slashLocation
        [HashLocation.Op.addListener 1]) (by decide) (by decide)).2.2.2 (by decide),
   by decide,
   ((removeListener_unregistered 2).2
      (HistoryLocation.reach Browser.browser Browser.testLocation
        [HistoryLocation.Op.addListener 1]) (by decide) (by decide)).2.1.trans (by decide)⟩

end CommonHistory
